import Mathlib

/-!
Verification development for the symbolicate-trace repository.

The program resolves raw native-code addresses from performance traces using
Breakpad symbol files.  This file gives a shallow embedding of:

* the Breakpad symbol-file parser and the tiered `lookup` (src/breakpad.js);
* the frame-formatting step of `symbolicateFrame` (src/index.js and the
  unnamed module, which are the two revisions of the top-level driver);
* the per-module in-flight deduplication table of `symbolicateFrame`;
* the cache/fetch pipeline `fetchSymbol` / `getSymbolFile` of the unnamed
  module (the revision the specification's §4.4/§4.5 describe: temporary
  staging plus rename, corruption recovery).

Strings are modelled with Lean `String`/`List Char`; JS `Map` objects are
modelled as association lists with `Map.set`/`Map.get` semantics; filesystem
paths are modelled as lists of path segments (the JS code joins segments with
`path.join`; no segment produced by the program contains a separator, so the
segment-list model is faithful).  Machine numbers are modelled as `Nat`
(addresses in symbol files are non-negative; JS float imprecision above 2^53
is outside the spec's address-width invariant and is not modelled).
-/

/-! ## Character classes and numeric parsing (src/breakpad.js regexes) -/

/-- The regex character class `[0-9a-f]` (lowercase hex only). -/
def isHexChar (c : Char) : Bool :=
  ('0' ≤ c && c ≤ '9') || ('a' ≤ c && c ≤ 'f')

/-- The regex character class `\d`. -/
def isDecChar (c : Char) : Bool :=
  '0' ≤ c && c ≤ '9'

/-- The JS regex class `\s` (whitespace), as far as the symbol-file grammar
can observe it: space, tab, vertical whitespace, NBSP, BOM. -/
def isJsSpace (c : Char) : Bool :=
  c = ' ' || c = '\t' || c = '\n' || c = '\r' || c = '\x0b' || c = '\x0c' ||
  c.toNat = 0xa0 || c.toNat = 0xfeff

/-- Value of one `[0-9a-f]` digit. -/
def hexCharVal (c : Char) : Nat :=
  if c ≤ '9' then c.toNat - '0'.toNat else c.toNat - 'a'.toNat + 10

/-- `parseInt(s, 16)` on a string of `[0-9a-f]` digits. -/
def hexVal (cs : List Char) : Nat :=
  cs.foldl (fun a c => 16 * a + hexCharVal c) 0

/-- `parseInt(s, 10)` on a string of `\d` digits. -/
def decVal (cs : List Char) : Nat :=
  cs.foldl (fun a c => 10 * a + (c.toNat - '0'.toNat)) 0

/-- Match a literal string at the start of the input, returning the rest
(the fixed keyword part of each record regex). -/
def dropLit : List Char → List Char → Option (List Char)
  | [], cs => some cs
  | _ :: _, [] => none
  | p :: ps, c :: cs => if c = p then dropLit ps cs else none

/-- Match `(C+) ` — a maximal nonempty run of characters in class `p`
followed by one literal space — returning (run, rest).  This is the exact
behaviour of the source regexes' `(\S+) `, `(\d+) `, `([0-9a-f]+) ` pieces:
the run is greedy-maximal, and backtracking a greedy run can never help,
because the character given back is in the class and therefore is not the
literal space the regex would next require. -/
def splitTok (p : Char → Bool) (cs : List Char) : Option (List Char × List Char) :=
  let tok := cs.takeWhile p
  if tok.isEmpty then none
  else
    match cs.dropWhile p with
    | ' ' :: rest => some (tok, rest)
    | _ => none

/-- `s.startsWith(pre)` (JS `String.prototype.startsWith`). -/
def strStarts (s pre : String) : Bool :=
  pre.toList.isPrefixOf s.toList

/-- `s.endsWith(suf)` (used to recognise a `.pdb` module-name suffix). -/
def strEnds (s suf : String) : Bool :=
  suf.toList.isSuffixOf s.toList

/-! ## Data model (src/breakpad.js records) -/

/-- `MODULE <os> <arch> <id> <name>` metadata. -/
structure ModuleInfo where
  os : String
  arch : String
  id : String
  name : String
deriving DecidableEq

/-- A `FUNC` record: `{ address, size, parameterSize, name, multiple }`. -/
structure FuncRecord where
  address : Nat
  size : Nat
  parameterSize : Nat
  name : String
  multiple : Bool
deriving DecidableEq

/-- A `PUBLIC` record: `{ address, parameterSize, name, multiple }` (no size). -/
structure PublicRecord where
  address : Nat
  parameterSize : Nat
  name : String
  multiple : Bool
deriving DecidableEq

/-- A line record `{ address, size, file, line, func }`.  `file` is the file
name resolved from `filesById` when the record is parsed (`undefined`, i.e.
`none`, when the file id is not in the table); `func` is `lastFunc`, the most
recently parsed `FUNC` record (`null`, i.e. `none`, if there was none). -/
structure LineRecord where
  address : Nat
  size : Nat
  file : Option String
  line : Nat
  func : Option FuncRecord
deriving DecidableEq

/-! ## JS `Map` model (association list with `set`/`get` semantics) -/

/-- `Map.prototype.set`: replace the value at an existing key in place,
otherwise append a new entry. -/
def mapSet {κ ν : Type} [DecidableEq κ] : List (κ × ν) → κ → ν → List (κ × ν)
  | [], k, v => [(k, v)]
  | (k0, v0) :: rest, k, v =>
    if k0 = k then (k, v) :: rest else (k0, v0) :: mapSet rest k v

/-- `Map.prototype.get` (`none` for `undefined`). -/
def mapGet {κ ν : Type} [DecidableEq κ] : List (κ × ν) → κ → Option ν
  | [], _ => none
  | (k0, v0) :: rest, k => if k0 = k then some v0 else mapGet rest k

/-! ## Record matchers

Each matcher is the translation of one regex from the `parse` loop of
src/breakpad.js.  All five regexes are effectively deterministic: every
greedy piece (`\S+`, `\d+`, `[0-9a-f]+`) is followed by a character not in
its own class (a literal space or end of line), so giving characters back
never produces a match that the maximal-run reading misses; and the optional
`(?:(m) )?` branch of FUNC/PUBLIC commits whenever the input starts with
`"m "`, because the no-`m` alternative would then have to read `m` as a hex
digit, which fails. -/

/-- `^MODULE (\S+) (\S+) (\S+) (.+)$` (src/breakpad.js line 54). -/
def matchMODULE (cs : List Char) : Option ModuleInfo := do
  let cs ← dropLit "MODULE ".toList cs
  let (os, cs) ← splitTok (fun c => !isJsSpace c) cs
  let (arch, cs) ← splitTok (fun c => !isJsSpace c) cs
  let (idT, cs) ← splitTok (fun c => !isJsSpace c) cs
  if cs.isEmpty then none
  else some ⟨os.asString, arch.asString, idT.asString, cs.asString⟩

/-- `^FILE (\d+) (.+)$` (src/breakpad.js line 57); yields (fileId, fileName).
The file id is kept as a string: it is used as a `Map` key verbatim. -/
def matchFILE (cs : List Char) : Option (String × String) := do
  let cs ← dropLit "FILE ".toList cs
  let (fid, cs) ← splitTok isDecChar cs
  if cs.isEmpty then none
  else some (fid.asString, cs.asString)

/-- The optional `(?:(m) )?` piece of the FUNC and PUBLIC regexes.  The
branch is committed whenever the input starts with `"m "`: the no-`m`
alternative would have to read `m` as a `[0-9a-f]` digit, which fails, so
backtracking out of the branch can never produce a match. -/
def optM (cs : List Char) : Bool × List Char :=
  match cs with
  | c1 :: c2 :: rest => if c1 = 'm' ∧ c2 = ' ' then (true, rest) else (false, cs)
  | _ => (false, cs)

/-- `^FUNC (?:(m) )?([0-9a-f]+) ([0-9a-f]+) ([0-9a-f]+) (.+)$`
(src/breakpad.js line 60). -/
def matchFUNC (cs : List Char) : Option FuncRecord := do
  let cs ← dropLit "FUNC ".toList cs
  let (multiple, cs) := optM cs
  let (a, cs) ← splitTok isHexChar cs
  let (s, cs) ← splitTok isHexChar cs
  let (ps, cs) ← splitTok isHexChar cs
  if cs.isEmpty then none
  else some ⟨hexVal a, hexVal s, hexVal ps, cs.asString, multiple⟩

/-- `^PUBLIC (?:(m) )?([0-9a-f]+) ([0-9a-f]+) (.+)$` (src/breakpad.js line 68). -/
def matchPUBLIC (cs : List Char) : Option PublicRecord := do
  let cs ← dropLit "PUBLIC ".toList cs
  let (multiple, cs) := optM cs
  let (a, cs) ← splitTok isHexChar cs
  let (ps, cs) ← splitTok isHexChar cs
  if cs.isEmpty then none
  else some ⟨hexVal a, hexVal ps, cs.asString, multiple⟩

/-- `^([0-9a-f]+) ([0-9a-f]+) (\d+) (\d+)$` (src/breakpad.js line 74);
yields (address, size, lineNumber, fileId-string). -/
def matchLINE (cs : List Char) : Option (Nat × Nat × Nat × String) := do
  let (a, cs) ← splitTok isHexChar cs
  let (s, cs) ← splitTok isHexChar cs
  let (ln, cs) ← splitTok isDecChar cs
  let fid := cs.takeWhile isDecChar
  if fid.isEmpty then none
  else if (cs.dropWhile isDecChar).isEmpty then
    some (hexVal a, hexVal s, decVal ln, fid.asString)
  else none

/-! ## The parser state and per-line step (src/breakpad.js lines 49–85) -/

/-- The mutable state of the `parse` loop: the three record collections being
built, the module metadata, the `filesById` map and the `lastFunc` cursor. -/
structure ParseState where
  functions : List FuncRecord := []
  lines : List LineRecord := []
  publicAddresses : List PublicRecord := []
  moduleInfo : Option ModuleInfo := none
  filesById : List (String × String) := []
  lastFunc : Option FuncRecord := none
deriving DecidableEq

/-- One iteration of the `for await (const line of rl)` loop on the
characters of one input line: the five regexes are tried in source order,
first match wins, and a line matching none of them is silently skipped
(the trailing `else` branch for STACK WIN / STACK CFI etc.). -/
def parseLineChars (st : ParseState) (cs : List Char) : ParseState :=
  match matchMODULE cs with
  | some md => { st with moduleInfo := some md }
  | none =>
  match matchFILE cs with
  | some fr => { st with filesById := mapSet st.filesById fr.1 fr.2 }
  | none =>
  match matchFUNC cs with
  | some f => { st with functions := st.functions ++ [f], lastFunc := some f }
  | none =>
  match matchPUBLIC cs with
  | some p => { st with publicAddresses := st.publicAddresses ++ [p] }
  | none =>
  match matchLINE cs with
  | some r =>
    { st with lines := st.lines ++
        [⟨r.1, r.2.1, mapGet st.filesById r.2.2.2, r.2.2.1, st.lastFunc⟩] }
  | none => st

/-- One loop iteration on a line given as a `String`. -/
def parseLine (st : ParseState) (line : String) : ParseState :=
  parseLineChars st line.toList

/-- The whole `parse` loop over the (readline-split) lines of a symbol file,
returning the final parser state. -/
def parseSt (ls : List String) : ParseState :=
  ls.foldl parseLine {}

/-! ## SymbolFile and the tiered lookup (src/breakpad.js lines 29–47) -/

/-- The `symbolFile` object returned by `parse`: the three address indexes
plus module metadata (`filesById` and `lastFunc` are loop-local state and are
not part of the returned object). -/
structure SymbolFile where
  functions : List FuncRecord
  lines : List LineRecord
  publicAddresses : List PublicRecord
  moduleInfo : Option ModuleInfo
deriving DecidableEq

/-- `parse`: the symbol file built from the given input lines. -/
def parse (ls : List String) : SymbolFile :=
  let st := parseSt ls
  ⟨st.functions, st.lines, st.publicAddresses, st.moduleInfo⟩

/-- Modelled from the spec: the AddressIndex predecessor query.  The code's
`impl.lb` (src/breakpad.js lines 7–14) runs `reverseOrderTraverse` on a
goog.structs AVL tree from `./goog-avl.js`, a repository file that is not
under src/.  Per spec §4.2, `predecessor(address)` returns "the record with
the greatest stored address ≤ the queried address" or absent "if the queried
address is below every stored address"; the tie-break among duplicate
addresses is explicitly unspecified.  This model scans the insertion list
for an entry of maximal address `≤ k`. -/
def lb {α : Type} (addrOf : α → Nat) : List α → Nat → Option α
  | [], _ => none
  | x :: rest, k =>
    match lb addrOf rest k with
    | none => if addrOf x ≤ k then some x else none
    | some y => if addrOf x ≤ k ∧ addrOf y < addrOf x then some x else some y

/-- The value returned by `symbolFile.lookup`: either the line record itself
(`return line`), or `{ func }` wrapping a FUNC record, or `{ func: public }`
wrapping a PUBLIC record. -/
inductive LookupResult where
  | line (l : LineRecord)
  | func (f : FuncRecord)
  | pub (p : PublicRecord)
deriving DecidableEq

/-- Tier 3 of `lookup` (src/breakpad.js lines 42–45): the predecessor public
symbol is returned unconditionally when present. -/
def lookupPubTier (sf : SymbolFile) (offset : Nat) : Option LookupResult :=
  match lb PublicRecord.address sf.publicAddresses offset with
  | some p => some (.pub p)
  | none => none

/-- Tier 2 of `lookup` (src/breakpad.js lines 38–41): the predecessor FUNC
record is returned when the offset is inside its `[address, address+size)`
range, else fall through to the public tier. -/
def lookupFuncTier (sf : SymbolFile) (offset : Nat) : Option LookupResult :=
  match lb FuncRecord.address sf.functions offset with
  | some f =>
    if offset < f.address + f.size then some (.func f)
    else lookupPubTier sf offset
  | none => lookupPubTier sf offset

/-- `symbolFile.lookup(offset)` (src/breakpad.js lines 33–46): line tier,
then function tier, then public tier; `none` models the implicit
`undefined` return when all three tiers miss. -/
def SymbolFile.lookup (sf : SymbolFile) (offset : Nat) : Option LookupResult :=
  match lb LineRecord.address sf.lines offset with
  | some l =>
    if offset < l.address + l.size then some (.line l)
    else lookupFuncTier sf offset
  | none => lookupFuncTier sf offset

/-- Observation: the result of lookup's tier-1 test, i.e. the value `line`
of `impl.lb(this.lines, offset)` when it also satisfies the range guard
`offset < line.address + line.size`. -/
def lineHit (sf : SymbolFile) (offset : Nat) : Option LineRecord :=
  match lb LineRecord.address sf.lines offset with
  | some l => if offset < l.address + l.size then some l else none
  | none => none

/-- Observation: the result of lookup's tier-2 test (`func` in range). -/
def funcHit (sf : SymbolFile) (offset : Nat) : Option FuncRecord :=
  match lb FuncRecord.address sf.functions offset with
  | some f => if offset < f.address + f.size then some f else none
  | none => none

/-! ## Frame formatting (src/index.js lines 88–97, unnamed module lines 93–100)

After a successful lookup, `symbolicateFrame` appends
``` `${frame} ${line.func.name}` + (line.file ? ` (${line.file}:${line.line})` : '') ```
to the frame.  On a tier-1 result, `line.func` is the record's
`owningFunction` and may be `null`; accessing `.name` on it throws a
TypeError, modelled here as `none`.  On tier-2/3 results `line.func` is the
wrapped record and `line.file` is `undefined` (falsy, so no suffix). -/
def formatLookup (frame : String) (r : LookupResult) : Option String :=
  match r with
  | .line l =>
    match l.func with
    | none => none
    | some f =>
      some (frame ++ " " ++ f.name ++
        (match l.file with
         | some file =>
           if file.isEmpty then "" else " (" ++ file ++ ":" ++ toString l.line ++ ")"
         | none => ""))
  | .func f => some (frame ++ " " ++ f.name)
  | .pub p => some (frame ++ " " ++ p.name)

/-! ## In-flight deduplication (src/index.js lines 84–87, unnamed module lines 89–92)

`symbolicateFrame` keeps a module-level `const symbolFiles = new Map` from
module id to the promise of `getSymbolFile(moduleId, moduleName, ...)`:

```
if (!symbolFiles.has(moduleId)) {
  symbolFiles.set(moduleId, getSymbolFile(moduleId, moduleName))
}
const symbols = await symbolFiles.get(moduleId)
```

There is no `await` between the `has` check and the `set`, so under the JS
run-to-completion event loop the check-then-insert is one atomic step; the
interleaving of concurrently symbolicated frames is an arbitrary arrival
order of these atomic steps, modelled as a list of `(moduleId, moduleName)`
requests processed in sequence.  The promise stored in the map is modelled
by the value the underlying `getSymbolFile` call eventually produces
(`oracle moduleId moduleName`); `callLog` records one entry per actual
`getSymbolFile` invocation. -/
structure SymTable (ω : Type) where
  entries : List (String × ω)
  callLog : List String

/-- One frame's check-then-insert step on the shared table. -/
def requestSymbolFile {ω : Type} (oracle : String → String → ω)
    (t : SymTable ω) (req : String × String) : ω × SymTable ω :=
  match mapGet t.entries req.1 with
  | some h => (h, t)
  | none =>
    let h := oracle req.1 req.2
    (h, ⟨t.entries ++ [(req.1, h)], t.callLog ++ [req.1]⟩)

/-- Process a whole arrival order of frame requests, returning the result
each frame observed (paired with its request) and the final table. -/
def runRequests {ω : Type} (oracle : String → String → ω) :
    List (String × String) → SymTable ω → List ((String × String) × ω) × SymTable ω
  | [], t => ([], t)
  | req :: rest, t =>
    let (h, t1) := requestSymbolFile oracle t req
    let (rs, t2) := runRequests oracle rest t1
    ((req, h) :: rs, t2)

/-! ## Filesystem model for the cache/fetch pipeline (unnamed module)

Paths are lists of segments; `path.join(directory, pdb, id, name)` is
`directory ++ [pdb, id, name]` with the cache root kept as an abstract
segment list.  A `FileSys` is the set of regular files (with their current
contents, which may be a partial download) plus the set of directories.
`rm(p, { recursive: true, force: true })` removes `p` and everything below
it; `mkdirp` records the directory. -/
structure FileSys where
  files : List (List String × String)
  dirs : List (List String)
deriving DecidableEq

/-- `fs.existsSync` on a file path. -/
def fileExists (fs : FileSys) (p : List String) : Bool :=
  (mapGet fs.files p).isSome

/-- `fs.existsSync` on a directory path (true if recorded as a directory or
if some file lives at or below it). -/
def dirExists (fs : FileSys) (d : List String) : Bool :=
  fs.dirs.contains d || fs.files.any (fun e => d.isPrefixOf e.1)

/-- `mkdirp(d)`. -/
def mkdirp (fs : FileSys) (d : List String) : FileSys :=
  if fs.dirs.contains d then fs else { fs with dirs := fs.dirs ++ [d] }

/-- `rm(d, { recursive: true, force: true })`: delete `d` and everything
under it, succeeding even if nothing is there. -/
def rmDir (fs : FileSys) (d : List String) : FileSys :=
  { files := fs.files.filter (fun e => !(d.isPrefixOf e.1)),
    dirs := fs.dirs.filter (fun x => !(d.isPrefixOf x)) }

/-- `mapDel`: remove one key (the source half of `rename`). -/
def mapDel {κ ν : Type} [DecidableEq κ] (m : List (κ × ν)) (k : κ) : List (κ × ν) :=
  m.filter (fun e => !(e.1 = k))

/-- The observable outcome of one `got.stream(url)` download pipeline:
either the full body is streamed successfully, or the pipeline throws with
message `msg` after `written` bytes reached the temporary file (a 404 from
the server surfaces as an error whose message starts with
`"Response code 404"`; an interrupted transfer leaves a partial `written`). -/
inductive DlOutcome where
  | success (content : String)
  | fail (written : String) (msg : String)
deriving DecidableEq

/-- `fetchSymbol(directory, baseUrl, pdb, id, symbolFileName)` of the
unnamed module (lines 15–45): stream the response into
`directory/in_progress/<pdb>_<id>_<symbolFileName>.download`, and only
after the pipeline completes move the file into its final cache path
`directory/<pdb>/<id>/<symbolFileName>` with `rename`; the catch clause
turns a `Response code 404` error into `false` (miss) and rethrows every
other error.  Returns the updated filesystem and `Except`-modelled
completion (`.error` = thrown). -/
def fetchSymbol (fs : FileSys) (dl : DlOutcome)
    (directory : List String) (pdb id symbolFileName : String) :
    FileSys × Except String Bool :=
  let symbolPath := directory ++ [pdb, id, symbolFileName]
  let tmpDir := directory ++ ["in_progress"]
  let tmpPath := tmpDir ++ [pdb ++ "_" ++ id ++ "_" ++ symbolFileName ++ ".download"]
  let fs0 := mkdirp fs tmpDir
  match dl with
  | .success content =>
    let fs1 := { fs0 with files := mapSet fs0.files tmpPath content }
    let fs2 := mkdirp fs1 (directory ++ [pdb, id])
    let fs3 := { fs2 with files := mapSet (mapDel fs2.files tmpPath) symbolPath content }
    (fs3, .ok true)
  | .fail written msg =>
    let fs1 := { fs0 with files := mapSet fs0.files tmpPath written }
    if strStarts msg "Response code 404" then (fs1, .ok false)
    else (fs1, .error msg)

/-- The ordered symbol-server list (both revisions of the driver). -/
def SYMBOL_BASE_URLS : List String :=
  ["https://symbols.mozilla.org/try", "https://symbols.electronjs.org"]

deriving instance DecidableEq for Except

/-- Result of the fetch stage of `getSymbolFile`: final filesystem, the
base URLs actually attempted (in order), and the returned/thrown value. -/
structure FetchOut where
  fsys : FileSys
  attempts : List String
  result : Except String (Option SymbolFile)
deriving DecidableEq

/-- The `for (const baseUrl of SYMBOL_BASE_URLS)` loop of `getSymbolFile`
(unnamed module lines 68–80), generalised over the URL list.  `resp` gives
each base URL's download outcome and `parseFile` the result of
`breakpad.parse` on a file's content (`.error` = the parse threw).  Each
iteration runs `fetchSymbol`; on `true` it parses the freshly cached file
and returns; on `false` (404 miss) it advances to the next URL; on a thrown
transfer error (`await fetchSymbol` is awaited) the catch clause removes the
per-module cache directory and rethrows, aborting the loop.  The parse, by
contrast, is `return breakpad.parse(...)` WITHOUT `await`: `parse` is async,
so a parse rejection is returned as the call's result and bypasses the
try/catch — no directory removal runs and the rejection propagates. -/
def fetchLoop (parseFile : String → Except String SymbolFile)
    (resp : String → DlOutcome) (cacheDirectory : List String)
    (pdb id symbolFileName : String) (fs : FileSys) :
    List String → FetchOut
  | [] => ⟨fs, [], .ok none⟩
  | u :: rest =>
    let symbolPath := cacheDirectory ++ [pdb, id, symbolFileName]
    let moduleDir := cacheDirectory ++ [pdb, id]
    let fr := fetchSymbol fs (resp u) cacheDirectory pdb id symbolFileName
    match fr.2 with
    | .ok true =>
      match mapGet fr.1.files symbolPath with
      | some content =>
        match parseFile content with
        | .ok sf => ⟨fr.1, [u], .ok (some sf)⟩
        | .error e => ⟨fr.1, [u], .error e⟩
      | none => ⟨fr.1, [u], .error "ENOENT"⟩
    | .ok false =>
      let out := fetchLoop parseFile resp cacheDirectory pdb id symbolFileName fr.1 rest
      ⟨out.fsys, u :: out.attempts, out.result⟩
    | .error e => ⟨rmDir fr.1 moduleDir, [u], .error e⟩

/-- `pdb = moduleName.replace(/^\//, '')`: strip one leading slash. -/
def pdbOf (moduleName : String) : String :=
  match moduleName.toList with
  | '/' :: rest => rest.asString
  | _ => moduleName

/-- `symbolFileName = pdb.replace(/(\.pdb)?$/, '.sym')`: replace a final
`.pdb` suffix with `.sym`, or append `.sym` when there is none (the regex's
first — and only — match is at the end of the string). -/
def symFileNameOf (pdb : String) : String :=
  if strEnds pdb ".pdb" then
    (pdb.toList.take (pdb.toList.length - 4)).asString ++ ".sym"
  else pdb ++ ".sym"

/-- The fetch-or-negative-cache stage of `getSymbolFile` (unnamed module
lines 68–80): the loop runs only under
`!fs.existsSync(symbolPath) && (!fs.existsSync(path.dirname(symbolPath)) || forceRefetch)`;
otherwise the function falls off the end and returns `undefined`
(`.ok none`). -/
def getSymbolFileFetchStage (parseFile : String → Except String SymbolFile)
    (resp : String → DlOutcome) (fs : FileSys) (cacheDirectory : List String)
    (pdb moduleId symbolFileName : String) (forceRefetch : Bool) : FetchOut :=
  let symbolPath := cacheDirectory ++ [pdb, moduleId, symbolFileName]
  let moduleDir := cacheDirectory ++ [pdb, moduleId]
  if !fileExists fs symbolPath && (!dirExists fs moduleDir || forceRefetch) then
    fetchLoop parseFile resp cacheDirectory pdb moduleId symbolFileName fs SYMBOL_BASE_URLS
  else ⟨fs, [], .ok none⟩

/-- `getSymbolFile(moduleId, moduleName, opts)` of the unnamed module
(lines 52–81).  When the cache file exists and refetch is not forced, line
59 is `return breakpad.parse(fs.createReadStream(symbolPath))` WITHOUT
`await`: `parse` is async, so the promise is returned as the call's result
and a parse rejection bypasses the enclosing try/catch — the recovery branch
(warn, `rm` of the per-module directory, fall-through to fetch) is dead code
for parse failures, which instead propagate to the awaiters with no deletion
and no refetch.  (The catch could only see a synchronous throw from
`fs.createReadStream`, which a valid string path never produces, so it is
not modelled.) -/
def getSymbolFile (parseFile : String → Except String SymbolFile)
    (resp : String → DlOutcome) (fs : FileSys) (cacheDirectory : List String)
    (moduleId moduleName : String) (forceRefetch : Bool) : FetchOut :=
  let pdb := pdbOf moduleName
  let symbolFileName := symFileNameOf pdb
  let symbolPath := cacheDirectory ++ [pdb, moduleId, symbolFileName]
  if fileExists fs symbolPath && !forceRefetch then
    match parseFile ((mapGet fs.files symbolPath).getD "") with
    | .ok sf => ⟨fs, [], .ok (some sf)⟩
    | .error e => ⟨fs, [], .error e⟩
  else
    getSymbolFileFetchStage parseFile resp fs
      cacheDirectory pdb moduleId symbolFileName forceRefetch

/-- `is404 r` holds when a download outcome is the non-fatal 404 miss the
catch clause of `fetchSymbol` converts to `false`. -/
def is404 (dl : DlOutcome) : Bool :=
  match dl with
  | .success _ => false
  | .fail _ msg => strStarts msg "Response code 404"

/-- The final cache path `path.join(cacheDirectory, pdb, moduleId, symbolFileName)`
computed by `getSymbolFile` for a frame's module id and name. -/
def symbolPathOf (cacheDirectory : List String) (moduleId moduleName : String) :
    List String :=
  cacheDirectory ++ [pdbOf moduleName, moduleId, symFileNameOf (pdbOf moduleName)]

/-- `path.dirname` of the final cache path: the per-module cache directory. -/
def moduleDirOf (cacheDirectory : List String) (moduleId moduleName : String) :
    List String :=
  cacheDirectory ++ [pdbOf moduleName, moduleId]

/-! ## Lemmas about the predecessor query and the tiered lookup -/

/-- A predecessor-query result is at or below the queried address. -/
theorem lb_le {α : Type} (addrOf : α → Nat) (k : Nat) :
    ∀ (xs : List α) (y : α), lb addrOf xs k = some y → addrOf y ≤ k := by
  intro xs
  induction xs with
  | nil => intro y h; simp [lb] at h
  | cons x rest ih =>
    intro y h
    rw [lb] at h
    cases hr : lb addrOf rest k with
    | none =>
      rw [hr] at h
      change (if addrOf x ≤ k then some x else none) = some y at h
      by_cases hx : addrOf x ≤ k
      · rw [if_pos hx] at h
        cases h
        exact hx
      · rw [if_neg hx] at h
        cases h
    | some y0 =>
      rw [hr] at h
      change (if addrOf x ≤ k ∧ addrOf y0 < addrOf x then some x else some y0) = some y at h
      by_cases hx : addrOf x ≤ k ∧ addrOf y0 < addrOf x
      · rw [if_pos hx] at h
        cases h
        exact hx.1
      · rw [if_neg hx] at h
        cases h
        exact ih _ hr

/-- The public tier only ever produces a `.pub` result. -/
theorem pubTier_shape (sf : SymbolFile) (offset : Nat) (r : LookupResult)
    (h : lookupPubTier sf offset = some r) : ∃ p, r = .pub p := by
  rw [lookupPubTier] at h
  cases hp : lb PublicRecord.address sf.publicAddresses offset with
  | none => rw [hp] at h; cases h
  | some p =>
    rw [hp] at h
    cases h
    exact ⟨p, rfl⟩

/-- The function tier never produces a `.line` result. -/
theorem funcTier_not_line (sf : SymbolFile) (offset : Nat) (l : LineRecord) :
    lookupFuncTier sf offset ≠ some (.line l) := by
  intro h
  rw [lookupFuncTier] at h
  cases hf : lb FuncRecord.address sf.functions offset with
  | none =>
    rw [hf] at h
    obtain ⟨p, hp⟩ := pubTier_shape sf offset _ h
    cases hp
  | some f0 =>
    rw [hf] at h
    change (if offset < f0.address + f0.size then some (LookupResult.func f0)
      else lookupPubTier sf offset) = _ at h
    by_cases hc : offset < f0.address + f0.size
    · rw [if_pos hc] at h
      cases h
    · rw [if_neg hc] at h
      obtain ⟨p, hp⟩ := pubTier_shape sf offset _ h
      cases hp

/-- A tier-1 hit forces lookup to return exactly that line-level result. -/
theorem lookup_of_lineHit (sf : SymbolFile) (offset : Nat) (l : LineRecord)
    (h : lineHit sf offset = some l) : sf.lookup offset = some (.line l) := by
  rw [lineHit] at h
  rw [SymbolFile.lookup]
  cases hl : lb LineRecord.address sf.lines offset with
  | none => rw [hl] at h; cases h
  | some l0 =>
    rw [hl] at h
    change (if offset < l0.address + l0.size then some l0 else none) = some l at h
    by_cases hc : offset < l0.address + l0.size
    · rw [if_pos hc] at h
      cases h
      exact if_pos hc
    · rw [if_neg hc] at h
      cases h

/-- On a tier-1 miss, lookup is the function tier. -/
theorem lookup_of_lineMiss (sf : SymbolFile) (offset : Nat)
    (h : lineHit sf offset = none) : sf.lookup offset = lookupFuncTier sf offset := by
  rw [lineHit] at h
  rw [SymbolFile.lookup]
  cases hl : lb LineRecord.address sf.lines offset with
  | none => rfl
  | some l0 =>
    rw [hl] at h
    change (if offset < l0.address + l0.size then some l0 else none) = none at h
    by_cases hc : offset < l0.address + l0.size
    · rw [if_pos hc] at h
      cases h
    · exact if_neg hc

/-- On a tier-2 miss, the function tier is the public tier. -/
theorem funcTier_of_funcMiss (sf : SymbolFile) (offset : Nat)
    (h : funcHit sf offset = none) : lookupFuncTier sf offset = lookupPubTier sf offset := by
  rw [funcHit] at h
  rw [lookupFuncTier]
  cases hf : lb FuncRecord.address sf.functions offset with
  | none => rfl
  | some f0 =>
    rw [hf] at h
    change (if offset < f0.address + f0.size then some f0 else none) = none at h
    by_cases hc : offset < f0.address + f0.size
    · rw [if_pos hc] at h
      cases h
    · exact if_neg hc

/-- A tier-2 hit after a tier-1 miss forces the function-level result. -/
theorem lookup_of_funcHit (sf : SymbolFile) (offset : Nat) (f : FuncRecord)
    (h1 : lineHit sf offset = none) (h2 : funcHit sf offset = some f) :
    sf.lookup offset = some (.func f) := by
  rw [lookup_of_lineMiss sf offset h1]
  rw [funcHit] at h2
  rw [lookupFuncTier]
  cases hf : lb FuncRecord.address sf.functions offset with
  | none => rw [hf] at h2; cases h2
  | some f0 =>
    rw [hf] at h2
    change (if offset < f0.address + f0.size then some f0 else none) = some f at h2
    by_cases hc : offset < f0.address + f0.size
    · rw [if_pos hc] at h2
      cases h2
      exact if_pos hc
    · rw [if_neg hc] at h2
      cases h2

/-- After tier-1 and tier-2 misses, any predecessor public symbol is
returned unconditionally. -/
theorem lookup_of_pub (sf : SymbolFile) (offset : Nat) (p : PublicRecord)
    (h1 : lineHit sf offset = none) (h2 : funcHit sf offset = none)
    (h3 : lb PublicRecord.address sf.publicAddresses offset = some p) :
    sf.lookup offset = some (.pub p) := by
  rw [lookup_of_lineMiss sf offset h1, funcTier_of_funcMiss sf offset h2, lookupPubTier, h3]

/-- A line-level lookup result always satisfies the range guard. -/
theorem lookup_line_range (sf : SymbolFile) (offset : Nat) (l : LineRecord)
    (h : sf.lookup offset = some (.line l)) : offset < l.address + l.size := by
  rw [SymbolFile.lookup] at h
  cases hl : lb LineRecord.address sf.lines offset with
  | none =>
    rw [hl] at h
    exact absurd h (funcTier_not_line sf offset l)
  | some l0 =>
    rw [hl] at h
    change (if offset < l0.address + l0.size then some (LookupResult.line l0)
      else lookupFuncTier sf offset) = _ at h
    by_cases hc : offset < l0.address + l0.size
    · rw [if_pos hc] at h
      cases h
      exact hc
    · rw [if_neg hc] at h
      exact absurd h (funcTier_not_line sf offset l)

/-- A function-level lookup result always satisfies the range guard. -/
theorem lookup_func_range (sf : SymbolFile) (offset : Nat) (f : FuncRecord)
    (h : sf.lookup offset = some (.func f)) : offset < f.address + f.size := by
  have hft : ∀ hf : lookupFuncTier sf offset = some (.func f),
      offset < f.address + f.size := by
    intro hf
    rw [lookupFuncTier] at hf
    cases hfm : lb FuncRecord.address sf.functions offset with
    | none =>
      rw [hfm] at hf
      obtain ⟨p, hp⟩ := pubTier_shape sf offset _ hf
      cases hp
    | some f0 =>
      rw [hfm] at hf
      change (if offset < f0.address + f0.size then some (LookupResult.func f0)
        else lookupPubTier sf offset) = _ at hf
      by_cases hc : offset < f0.address + f0.size
      · rw [if_pos hc] at hf
        cases hf
        exact hc
      · rw [if_neg hc] at hf
        obtain ⟨p, hp⟩ := pubTier_shape sf offset _ hf
        cases hp
  rw [SymbolFile.lookup] at h
  cases hl : lb LineRecord.address sf.lines offset with
  | none =>
    rw [hl] at h
    exact hft h
  | some l0 =>
    rw [hl] at h
    change (if offset < l0.address + l0.size then some (LookupResult.line l0)
      else lookupFuncTier sf offset) = _ at h
    by_cases hc : offset < l0.address + l0.size
    · rw [if_pos hc] at h
      cases h
    · rw [if_neg hc] at h
      exact hft h

/-! ## Claim C1 -/

/-- Claim C1: `SymbolFile.lookup(offset)` evaluates the three indexes in the
fixed priority order line, then function, then public, first hit wins.  When
the tier-1 line test hits (the predecessor line record covers the offset:
`offset < line.address + line.size`), lookup returns that line-level result
and never a function- or public-level one; when the line tier misses but the
function tier hits, the in-range function record is returned, never the
public one; when neither covers the offset, the predecessor public symbol is
returned unconditionally for any offset at or above its address. -/
theorem C1_lookup_tier_priority (sf : SymbolFile) (offset : Nat) :
    (∀ l, lineHit sf offset = some l → sf.lookup offset = some (.line l)) ∧
    (lineHit sf offset = none →
      ∀ f, funcHit sf offset = some f → sf.lookup offset = some (.func f)) ∧
    (lineHit sf offset = none → funcHit sf offset = none →
      ∀ p, lb PublicRecord.address sf.publicAddresses offset = some p →
        sf.lookup offset = some (.pub p) ∧ p.address ≤ offset) := by
  refine ⟨fun l h => lookup_of_lineHit sf offset l h,
    fun h1 f h2 => lookup_of_funcHit sf offset f h1 h2,
    fun h1 h2 p h3 => ⟨lookup_of_pub sf offset p h1 h2 h3, ?_⟩⟩
  exact lb_le PublicRecord.address offset sf.publicAddresses p h3

/-- Witness for C1 on the spec's end-to-end example (`FUNC 1000 50 0 foo`,
`FILE 1 a.cc`, line record `1010 10 42 1`): all three tiers exercised at
offsets 0x1015 (line hit), 0x1002 (function hit, line miss), and a
public-only file at 0xffff. -/
theorem C1_lookup_tier_priority_witness :
    (lineHit (parse ["MODULE windows x86 ABC foo.pdb", "FILE 1 a.cc",
        "FUNC 1000 50 0 foo", "1010 10 42 1"]) 4117 =
      some ⟨4112, 16, some "a.cc", 42, some ⟨4096, 80, 0, "foo", false⟩⟩ ∧
     (parse ["MODULE windows x86 ABC foo.pdb", "FILE 1 a.cc",
        "FUNC 1000 50 0 foo", "1010 10 42 1"]).lookup 4117 =
      some (.line ⟨4112, 16, some "a.cc", 42, some ⟨4096, 80, 0, "foo", false⟩⟩)) ∧
    ((parse ["MODULE windows x86 ABC foo.pdb", "FILE 1 a.cc",
        "FUNC 1000 50 0 foo", "1010 10 42 1"]).lookup 4098 =
      some (.func ⟨4096, 80, 0, "foo", false⟩)) ∧
    ((parse ["PUBLIC 10 0 psym"]).lookup 65535 = some (.pub ⟨16, 0, "psym", false⟩) ∧
      (16 : Nat) ≤ 65535) :=
  ⟨⟨rfl, (C1_lookup_tier_priority (parse ["MODULE windows x86 ABC foo.pdb",
      "FILE 1 a.cc", "FUNC 1000 50 0 foo", "1010 10 42 1"]) 4117).1 _ rfl⟩,
   (C1_lookup_tier_priority (parse ["MODULE windows x86 ABC foo.pdb",
      "FILE 1 a.cc", "FUNC 1000 50 0 foo", "1010 10 42 1"]) 4098).2.1 rfl _ rfl,
   (C1_lookup_tier_priority (parse ["PUBLIC 10 0 psym"]) 65535).2.2 rfl rfl _ rfl⟩

/-! ## Claim C6 -/

/-- Claim C6: for every function or line record with address A and size S,
`lookup(offset)` with `offset ≥ A + S` never resolves to that record as its
line- or function-tier match, even if the record is the nearest predecessor
in its index: such an offset falls through to the next tier or to absent. -/
theorem C6_bounded_range_exclusion (sf : SymbolFile) (offset : Nat)
    (l : LineRecord) (f : FuncRecord) :
    (l.address + l.size ≤ offset → sf.lookup offset ≠ some (.line l)) ∧
    (f.address + f.size ≤ offset → sf.lookup offset ≠ some (.func f)) := by
  constructor
  · intro hle h
    exact absurd (lookup_line_range sf offset l h) (Nat.not_lt.mpr hle)
  · intro hle h
    exact absurd (lookup_func_range sf offset f h) (Nat.not_lt.mpr hle)

/-- Witness for C6: in the end-to-end example file, offset 0x2000 is at or
past the end of both the function record (0x1000+0x50) and the line record
(0x1010+0x10) that are its nearest predecessors, and lookup resolves to
neither (indeed it returns absent, matching the spec's example). -/
theorem C6_bounded_range_exclusion_witness :
    ((4112 : Nat) + 16 ≤ 8192 ∧
     (parse ["FILE 1 a.cc", "FUNC 1000 50 0 foo", "1010 10 42 1"]).lookup 8192 ≠
       some (.line ⟨4112, 16, some "a.cc", 42, some ⟨4096, 80, 0, "foo", false⟩⟩)) ∧
    ((4096 : Nat) + 80 ≤ 8192 ∧
     (parse ["FILE 1 a.cc", "FUNC 1000 50 0 foo", "1010 10 42 1"]).lookup 8192 ≠
       some (.func ⟨4096, 80, 0, "foo", false⟩)) :=
  ⟨⟨by decide,
    (C6_bounded_range_exclusion _ 8192 ⟨4112, 16, some "a.cc", 42,
      some ⟨4096, 80, 0, "foo", false⟩⟩ ⟨4096, 80, 0, "foo", false⟩).1 (by decide)⟩,
   ⟨by decide,
    (C6_bounded_range_exclusion _ 8192 ⟨4112, 16, some "a.cc", 42,
      some ⟨4096, 80, 0, "foo", false⟩⟩ ⟨4096, 80, 0, "foo", false⟩).2 (by decide)⟩⟩

/-! ## Claim C9 (corrected) -/

/-- Counterexample to claim C9 as stated: for the symbol file parsed from the
single line record `1000 10 42 1` (no preceding FUNC record, so
`owningFunction` is null), `lookup(0x1000)` does return the line-level
result, but formatting that result in `symbolicateFrame` evaluates
`line.func.name` on a null `func` and raises a TypeError (modelled by
`formatLookup` returning `none`): resolving plus formatting does not
complete without error. -/
theorem C9_null_owner_counterexample :
    (parse ["1000 10 42 1"]).lookup 4096 =
      some (.line ⟨4096, 16, none, 42, none⟩) ∧
    formatLookup "0x1000 - mod.dll [ABCD]" (.line ⟨4096, 16, none, 42, none⟩) = none :=
  ⟨rfl, rfl⟩

/-- Claim C9, amended: `lookup` itself tolerates a null `owningFunction` —
for any offset whose tier-1 test hits a line record with `func = null`,
lookup completes normally and returns that line-level result — but the
frame-formatting step of `symbolicateFrame` then dereferences the null
function's `.name` and fails rather than completing without error. -/
theorem C9_null_owner_amended (sf : SymbolFile) (offset : Nat) (l : LineRecord)
    (frame : String) (h1 : lineHit sf offset = some l) (h2 : l.func = none) :
    sf.lookup offset = some (.line l) ∧ formatLookup frame (.line l) = none := by
  refine ⟨lookup_of_lineHit sf offset l h1, ?_⟩
  rw [formatLookup]
  rw [h2]

/-- Witness for the amended C9 at the counterexample input. -/
theorem C9_null_owner_amended_witness :
    (lineHit (parse ["1000 10 42 1"]) 4096 = some ⟨4096, 16, none, 42, none⟩ ∧
      (⟨4096, 16, none, 42, none⟩ : LineRecord).func = none) ∧
    ((parse ["1000 10 42 1"]).lookup 4096 = some (.line ⟨4096, 16, none, 42, none⟩) ∧
      formatLookup "0x1000 - mod.dll [ABCD]" (.line ⟨4096, 16, none, 42, none⟩) = none) :=
  ⟨⟨rfl, rfl⟩, C9_null_owner_amended _ 4096 _ "0x1000 - mod.dll [ABCD]" rfl rfl⟩

/-! ## Lemmas about the matchers and the parse step -/

/-- Skipping one matched literal. -/
theorem dropLit_self : ∀ (lit cs : List Char), dropLit lit (lit ++ cs) = some cs := by
  intro lit
  induction lit with
  | nil => intro cs; rfl
  | cons p ps ih => intro cs; simp [dropLit, ih]

/-- A line skipped by all five matchers leaves the parser state unchanged. -/
theorem parseLineChars_skip (st : ParseState) (cs : List Char)
    (h1 : matchMODULE cs = none) (h2 : matchFILE cs = none)
    (h3 : matchFUNC cs = none) (h4 : matchPUBLIC cs = none)
    (h5 : matchLINE cs = none) : parseLineChars st cs = st := by
  simp only [parseLineChars, h1, h2, h3, h4, h5]

/-- `takeWhile`/`dropWhile` across an all-in-class block followed by a
stopping character. -/
theorem takeWhile_app_stop (p : Char → Bool) (q : Char) (r : List Char)
    (hq : p q = false) :
    ∀ (l : List Char), (∀ c ∈ l, p c = true) →
      (l ++ q :: r).takeWhile p = l ∧ (l ++ q :: r).dropWhile p = q :: r := by
  intro l
  induction l with
  | nil =>
    intro _
    constructor
    · simp [List.takeWhile_cons, hq]
    · simp [List.dropWhile_cons, hq]
  | cons c l2 ih =>
    intro hall
    have hc : p c = true := hall c (List.mem_cons_self c l2)
    obtain ⟨iht, ihd⟩ := ih (fun x hx => hall x (List.mem_cons_of_mem c hx))
    constructor
    · simp [List.takeWhile_cons, hc, iht]
    · simp [List.dropWhile_cons, hc, ihd]

/-- A FILE line with an empty name field fails the FILE regex (its `(.+)$`
needs a nonempty suffix). -/
theorem matchFILE_empty_name (fid : List Char)
    (h1 : fid ≠ []) (h2 : ∀ c ∈ fid, isDecChar c = true) :
    matchFILE ("FILE ".toList ++ (fid ++ [' '])) = none := by
  obtain ⟨ht, hd⟩ := takeWhile_app_stop isDecChar ' ' [] (by decide) fid h2
  cases fid with
  | nil => exact absurd rfl h1
  | cons c f2 =>
    simp only [matchFILE, dropLit_self, Option.bind_eq_bind, Option.some_bind]
    simp only [splitTok, ht, hd]
    simp

/-- Counterexample to claim C7 as stated: for each of the four record kinds,
a line whose fixed-format prefix matches but whose trailing variable name
field is empty (e.g. `FILE 1 `) is NOT accepted with an empty name — the
regexes' final `(.+)$` requires at least one character — so the parser
state is left unchanged (in particular no `("1", "")` entry enters the
FileTable), i.e. the line is skipped. -/
theorem C7_empty_name_counterexample :
    (parseSt ["FILE 1 "]).filesById = [] ∧
    parseSt ["FILE 1 "] = ({} : ParseState) ∧
    parseSt ["FILE 1"] = ({} : ParseState) ∧
    parseSt ["FUNC 1 2 3 "] = ({} : ParseState) ∧
    parseSt ["PUBLIC 1 2 "] = ({} : ParseState) ∧
    parseSt ["MODULE win x86 ABCD "] = ({} : ParseState) :=
  ⟨rfl, rfl, rfl, rfl, rfl, rfl⟩

/-- Tokenised form of `(\S+) `, `(\d+) `, `([0-9a-f]+) ` against a
nonempty all-in-class token followed by the literal separator space. -/
theorem splitTok_token (p : Char → Bool) (tok rest : List Char)
    (h1 : tok ≠ []) (h2 : ∀ c ∈ tok, p c = true) (hsp : p ' ' = false) :
    splitTok p (tok ++ ' ' :: rest) = some (tok, rest) := by
  obtain ⟨ht, hd⟩ := takeWhile_app_stop p ' ' rest hsp tok h2
  simp only [splitTok, ht, hd]
  cases tok with
  | nil => exact absurd rfl h1
  | cons c t2 => simp

theorem optM_m (rest : List Char) : optM ('m' :: ' ' :: rest) = (true, rest) := rfl

theorem optM_hexHead (c : Char) (cs : List Char) (hc : isHexChar c = true) :
    optM (c :: cs) = (false, c :: cs) := by
  have hne : c ≠ 'm' := fun e => by rw [e] at hc; exact absurd hc (by decide)
  cases cs with
  | nil => rfl
  | cons c2 cs2 =>
    rw [optM]
    rw [if_neg (fun h => hne h.1)]

theorem matchMODULE_empty_name (os arch idT : List Char)
    (ho1 : os ≠ []) (ho2 : ∀ c ∈ os, (!isJsSpace c) = true)
    (ha1 : arch ≠ []) (ha2 : ∀ c ∈ arch, (!isJsSpace c) = true)
    (hi1 : idT ≠ []) (hi2 : ∀ c ∈ idT, (!isJsSpace c) = true) :
    matchMODULE ("MODULE ".toList ++
      (os ++ ' ' :: (arch ++ ' ' :: (idT ++ [' '])))) = none := by
  simp only [matchMODULE, dropLit_self, Option.bind_eq_bind, Option.some_bind,
    splitTok_token (fun c => !isJsSpace c) os _ ho1 ho2 (by decide),
    splitTok_token (fun c => !isJsSpace c) arch _ ha1 ha2 (by decide),
    splitTok_token (fun c => !isJsSpace c) idT [] hi1 hi2 (by decide)]
  simp

theorem matchFUNC_empty_name (m : Bool) (fa fsz fps : List Char)
    (hfa1 : fa ≠ []) (hfa2 : ∀ c ∈ fa, isHexChar c = true)
    (hfs1 : fsz ≠ []) (hfs2 : ∀ c ∈ fsz, isHexChar c = true)
    (hfp1 : fps ≠ []) (hfp2 : ∀ c ∈ fps, isHexChar c = true) :
    matchFUNC ("FUNC ".toList ++ (cond m ['m', ' '] [] ++
      (fa ++ ' ' :: (fsz ++ ' ' :: (fps ++ [' ']))))) = none := by
  cases m with
  | true =>
    simp only [cond_true, List.cons_append, List.nil_append]
    simp only [matchFUNC, dropLit_self, Option.bind_eq_bind, Option.some_bind,
      optM_m,
      splitTok_token isHexChar fa _ hfa1 hfa2 (by decide),
      splitTok_token isHexChar fsz _ hfs1 hfs2 (by decide),
      splitTok_token isHexChar fps [] hfp1 hfp2 (by decide)]
    simp
  | false =>
    simp only [cond_false, List.nil_append]
    cases fa with
    | nil => exact absurd rfl hfa1
    | cons c fa2 =>
      have hc : isHexChar c = true := hfa2 c (List.mem_cons_self c fa2)
      have hsp1 : splitTok isHexChar
          (c :: (fa2 ++ ' ' :: (fsz ++ ' ' :: (fps ++ [' '])))) =
          some (c :: fa2, fsz ++ ' ' :: (fps ++ [' '])) := by
        have h0 := splitTok_token isHexChar (c :: fa2)
          (fsz ++ ' ' :: (fps ++ [' '])) hfa1 hfa2 (by decide)
        rw [List.cons_append] at h0
        exact h0
      simp only [matchFUNC, dropLit_self, Option.bind_eq_bind, Option.some_bind,
        List.cons_append, optM_hexHead c _ hc, hsp1,
        splitTok_token isHexChar fsz _ hfs1 hfs2 (by decide),
        splitTok_token isHexChar fps [] hfp1 hfp2 (by decide)]
      simp

theorem matchPUBLIC_empty_name (m : Bool) (pa pps : List Char)
    (hpa1 : pa ≠ []) (hpa2 : ∀ c ∈ pa, isHexChar c = true)
    (hpp1 : pps ≠ []) (hpp2 : ∀ c ∈ pps, isHexChar c = true) :
    matchPUBLIC ("PUBLIC ".toList ++ (cond m ['m', ' '] [] ++
      (pa ++ ' ' :: (pps ++ [' '])))) = none := by
  cases m with
  | true =>
    simp only [cond_true, List.cons_append, List.nil_append]
    simp only [matchPUBLIC, dropLit_self, Option.bind_eq_bind, Option.some_bind,
      optM_m,
      splitTok_token isHexChar pa _ hpa1 hpa2 (by decide),
      splitTok_token isHexChar pps [] hpp1 hpp2 (by decide)]
    simp
  | false =>
    simp only [cond_false, List.nil_append]
    cases pa with
    | nil => exact absurd rfl hpa1
    | cons c pa2 =>
      have hc : isHexChar c = true := hpa2 c (List.mem_cons_self c pa2)
      have hsp1 : splitTok isHexChar (c :: (pa2 ++ ' ' :: (pps ++ [' ']))) =
          some (c :: pa2, pps ++ [' ']) := by
        have h0 := splitTok_token isHexChar (c :: pa2) (pps ++ [' '])
          hpa1 hpa2 (by decide)
        rw [List.cons_append] at h0
        exact h0
      simp only [matchPUBLIC, dropLit_self, Option.bind_eq_bind, Option.some_bind,
        List.cons_append, optM_hexHead c _ hc, hsp1,
        splitTok_token isHexChar pps [] hpp1 hpp2 (by decide)]
      simp

/-- Claim C7, amended: an input line whose fixed-format prefix matches a
record pattern (MODULE, FILE, FUNC or PUBLIC — any field values, and for
FUNC/PUBLIC with or without the `m` flag) but whose trailing variable name
field is empty does not match that record's regex (whose `(.+)$` requires a
nonempty name) and is silently skipped — the parser state is unchanged —
rather than accepted with an empty name. -/
theorem C7_empty_name_amended (st : ParseState)
    (os arch idT fid : List Char) (m : Bool) (fa fsz fps pa pps : List Char)
    (ho1 : os ≠ []) (ho2 : ∀ c ∈ os, (!isJsSpace c) = true)
    (ha1 : arch ≠ []) (ha2 : ∀ c ∈ arch, (!isJsSpace c) = true)
    (hi1 : idT ≠ []) (hi2 : ∀ c ∈ idT, (!isJsSpace c) = true)
    (hf1 : fid ≠ []) (hf2 : ∀ c ∈ fid, isDecChar c = true)
    (hfa1 : fa ≠ []) (hfa2 : ∀ c ∈ fa, isHexChar c = true)
    (hfs1 : fsz ≠ []) (hfs2 : ∀ c ∈ fsz, isHexChar c = true)
    (hfp1 : fps ≠ []) (hfp2 : ∀ c ∈ fps, isHexChar c = true)
    (hpa1 : pa ≠ []) (hpa2 : ∀ c ∈ pa, isHexChar c = true)
    (hpp1 : pps ≠ []) (hpp2 : ∀ c ∈ pps, isHexChar c = true) :
    parseLineChars st ("MODULE ".toList ++
      (os ++ ' ' :: (arch ++ ' ' :: (idT ++ [' '])))) = st ∧
    parseLineChars st ("FILE ".toList ++ (fid ++ [' '])) = st ∧
    parseLineChars st ("FUNC ".toList ++ (cond m ['m', ' '] [] ++
      (fa ++ ' ' :: (fsz ++ ' ' :: (fps ++ [' ']))))) = st ∧
    parseLineChars st ("PUBLIC ".toList ++ (cond m ['m', ' '] [] ++
      (pa ++ ' ' :: (pps ++ [' '])))) = st :=
  ⟨parseLineChars_skip st _
     (matchMODULE_empty_name os arch idT ho1 ho2 ha1 ha2 hi1 hi2) rfl rfl rfl rfl,
   parseLineChars_skip st _ rfl (matchFILE_empty_name fid hf1 hf2) rfl rfl rfl,
   parseLineChars_skip st _ rfl rfl
     (matchFUNC_empty_name m fa fsz fps hfa1 hfa2 hfs1 hfs2 hfp1 hfp2) rfl rfl,
   parseLineChars_skip st _ rfl rfl rfl
     (matchPUBLIC_empty_name m pa pps hpa1 hpa2 hpp1 hpp2) rfl⟩

/-- Witness for the amended C7: one empty-name line of each record kind
(`MODULE w x A `, `FILE 1 `, `FUNC m 1 2 3 `, `PUBLIC a b `) leaves the
empty parser state unchanged. -/
theorem C7_empty_name_amended_witness :
    parseLineChars ({} : ParseState)
      ("MODULE ".toList ++ (['w'] ++ ' ' :: (['x'] ++ ' ' :: (['A'] ++ [' '])))) = {} ∧
    parseLineChars ({} : ParseState) ("FILE ".toList ++ (['1'] ++ [' '])) = {} ∧
    parseLineChars ({} : ParseState) ("FUNC ".toList ++ (cond true ['m', ' '] [] ++
      (['1'] ++ ' ' :: (['2'] ++ ' ' :: (['3'] ++ [' ']))))) = {} ∧
    parseLineChars ({} : ParseState) ("PUBLIC ".toList ++ (cond false ['m', ' '] [] ++
      (['a'] ++ ' ' :: (['b'] ++ [' '])))) = {} :=
  ⟨(C7_empty_name_amended {} ['w'] ['x'] ['A'] ['1'] true ['1'] ['2'] ['3'] ['a'] ['b']
      (by decide) (by decide) (by decide) (by decide) (by decide) (by decide)
      (by decide) (by decide) (by decide) (by decide) (by decide) (by decide)
      (by decide) (by decide) (by decide) (by decide) (by decide) (by decide)).1,
   (C7_empty_name_amended {} ['w'] ['x'] ['A'] ['1'] true ['1'] ['2'] ['3'] ['a'] ['b']
      (by decide) (by decide) (by decide) (by decide) (by decide) (by decide)
      (by decide) (by decide) (by decide) (by decide) (by decide) (by decide)
      (by decide) (by decide) (by decide) (by decide) (by decide) (by decide)).2.1,
   (C7_empty_name_amended {} ['w'] ['x'] ['A'] ['1'] true ['1'] ['2'] ['3'] ['a'] ['b']
      (by decide) (by decide) (by decide) (by decide) (by decide) (by decide)
      (by decide) (by decide) (by decide) (by decide) (by decide) (by decide)
      (by decide) (by decide) (by decide) (by decide) (by decide) (by decide)).2.2.1,
   (C7_empty_name_amended {} ['w'] ['x'] ['A'] ['1'] false ['1'] ['2'] ['3'] ['a'] ['b']
      (by decide) (by decide) (by decide) (by decide) (by decide) (by decide)
      (by decide) (by decide) (by decide) (by decide) (by decide) (by decide)
      (by decide) (by decide) (by decide) (by decide) (by decide) (by decide)).2.2.2⟩

/-- Claim C10: `parse` is total over its input text.  The embedding of the
parse loop is a total Lean function by construction (faithfully: `exec`,
`parseInt` on matched digits, and `Map` operations never throw in the
source), so parse always terminates and returns a SymbolFile for every
input; moreover every line that matches none of the five record patterns
leaves the state unchanged and parsing continues: deleting such a line from
anywhere in the input does not change the parse result. -/
theorem C10_unrecognized_skip (s : String)
    (h1 : matchMODULE s.toList = none) (h2 : matchFILE s.toList = none)
    (h3 : matchFUNC s.toList = none) (h4 : matchPUBLIC s.toList = none)
    (h5 : matchLINE s.toList = none) :
    (∀ st, parseLine st s = st) ∧
    (∀ pre post, parseSt (pre ++ s :: post) = parseSt (pre ++ post)) ∧
    (∀ pre post, parse (pre ++ s :: post) = parse (pre ++ post)) := by
  have hskip : ∀ st, parseLine st s = st := fun st =>
    parseLineChars_skip st s.toList h1 h2 h3 h4 h5
  have hst : ∀ pre post, parseSt (pre ++ s :: post) = parseSt (pre ++ post) := by
    intro pre post
    rw [parseSt, parseSt, List.foldl_append, List.foldl_append, List.foldl_cons, hskip]
  refine ⟨hskip, hst, fun pre post => ?_⟩
  rw [parse, parse, hst pre post]

theorem C10_unrecognized_skip_witness :
    (matchMODULE "STACK CFI INIT 1000 10 .cfa: $esp".toList = none ∧
     matchFILE "STACK CFI INIT 1000 10 .cfa: $esp".toList = none ∧
     matchFUNC "STACK CFI INIT 1000 10 .cfa: $esp".toList = none ∧
     matchPUBLIC "STACK CFI INIT 1000 10 .cfa: $esp".toList = none ∧
     matchLINE "STACK CFI INIT 1000 10 .cfa: $esp".toList = none) ∧
    parse (["FUNC 1000 50 0 foo"] ++ "STACK CFI INIT 1000 10 .cfa: $esp" :: ["1010 10 42 1"]) =
      parse (["FUNC 1000 50 0 foo"] ++ ["1010 10 42 1"]) :=
  ⟨⟨rfl, rfl, rfl, rfl, rfl⟩,
   (C10_unrecognized_skip "STACK CFI INIT 1000 10 .cfa: $esp" rfl rfl rfl rfl rfl).2.2
     ["FUNC 1000 50 0 foo"] ["1010 10 42 1"]⟩

theorem splitTok_head (p : Char → Bool) (cs : List Char) (x : List Char × List Char)
    (h : splitTok p cs = some x) : ∃ c cs2, cs = c :: cs2 ∧ p c = true := by
  cases cs with
  | nil => simp [splitTok] at h
  | cons c cs2 =>
    refine ⟨c, cs2, rfl, ?_⟩
    cases hc : p c with
    | true => rfl
    | false =>
      rw [splitTok] at h
      simp [List.takeWhile_cons, hc] at h

theorem matchLINE_head (cs : List Char) (r : Nat × Nat × Nat × String)
    (h : matchLINE cs = some r) : ∃ c cs2, cs = c :: cs2 ∧ isHexChar c = true := by
  rw [matchLINE] at h
  cases hs : splitTok isHexChar cs with
  | none => rw [hs] at h; cases h
  | some x => exact splitTok_head isHexChar cs x hs

theorem matchMODULE_head_ne (c : Char) (cs : List Char) (h : c ≠ 'M') :
    matchMODULE (c :: cs) = none := by
  have hd : dropLit ['M', 'O', 'D', 'U', 'L', 'E', ' '] (c :: cs) = none := by
    simp [dropLit, h]
  simp [matchMODULE, hd]

theorem matchFILE_head_ne (c : Char) (cs : List Char) (h : c ≠ 'F') :
    matchFILE (c :: cs) = none := by
  have hd : dropLit ['F', 'I', 'L', 'E', ' '] (c :: cs) = none := by
    simp [dropLit, h]
  simp [matchFILE, hd]

theorem matchFUNC_head_ne (c : Char) (cs : List Char) (h : c ≠ 'F') :
    matchFUNC (c :: cs) = none := by
  have hd : dropLit ['F', 'U', 'N', 'C', ' '] (c :: cs) = none := by
    simp [dropLit, h]
  simp [matchFUNC, hd]

theorem matchPUBLIC_head_ne (c : Char) (cs : List Char) (h : c ≠ 'P') :
    matchPUBLIC (c :: cs) = none := by
  have hd : dropLit ['P', 'U', 'B', 'L', 'I', 'C', ' '] (c :: cs) = none := by
    simp [dropLit, h]
  simp [matchPUBLIC, hd]

/-- A line-record line adds exactly one LineRecord, resolving its file id
against the `filesById` table built from the preceding lines only. -/
theorem parseLine_lineRecord (st : ParseState) (s : String)
    (r : Nat × Nat × Nat × String) (h : matchLINE s.toList = some r) :
    parseLine st s = { st with lines := st.lines ++
      [⟨r.1, r.2.1, mapGet st.filesById r.2.2.2, r.2.2.1, st.lastFunc⟩] } := by
  obtain ⟨c, cs2, hcs, hhex⟩ := matchLINE_head s.toList r h
  rw [hcs] at h
  rw [parseLine, hcs]
  have hM : c ≠ 'M' := by intro e; rw [e] at hhex; exact absurd hhex (by decide)
  have hF : c ≠ 'F' := by intro e; rw [e] at hhex; exact absurd hhex (by decide)
  have hP : c ≠ 'P' := by intro e; rw [e] at hhex; exact absurd hhex (by decide)
  simp only [parseLineChars, matchMODULE_head_ne c cs2 hM, matchFILE_head_ne c cs2 hF,
    matchFUNC_head_ne c cs2 hF, matchPUBLIC_head_ne c cs2 hP, h]

theorem mapGet_mapSet_self {κ ν : Type} [DecidableEq κ] (k : κ) (v : ν) :
    ∀ m, mapGet (mapSet m k v) k = some v := by
  intro m
  induction m with
  | nil => simp [mapSet, mapGet]
  | cons e m ih =>
    obtain ⟨k0, v0⟩ := e
    by_cases h : k0 = k
    · simp [mapSet, mapGet, h]
    · simp [mapSet, mapGet, h, ih]

theorem mapGet_mapSet_ne {κ ν : Type} [DecidableEq κ] (k0 k : κ) (v : ν)
    (h : k0 ≠ k) : ∀ m, mapGet (mapSet m k0 v) k = mapGet m k := by
  intro m
  induction m with
  | nil => simp [mapSet, mapGet, h]
  | cons e m ih =>
    obtain ⟨k1, v1⟩ := e
    by_cases h1 : k1 = k0
    · rw [h1]
      simp [mapSet, mapGet, h]
    · simp [mapSet, mapGet, h1, ih]

/-- Counterexample to claim C8 as stated: moving the `FILE 1 a.cc` record
from before to after the line record `1000 10 42 1` that references file id
1 changes the lookup result at offset 0x1000 — the source-file name degrades
from `a.cc` to absent — because `parse` resolves `filesById.get(fileId)`
when the line record is parsed, not at lookup time. -/
theorem C8_filetable_order_counterexample :
    (parse ["FILE 1 a.cc", "1000 10 42 1"]).lookup 4096 =
      some (.line ⟨4096, 16, some "a.cc", 42, none⟩) ∧
    (parse ["1000 10 42 1", "FILE 1 a.cc"]).lookup 4096 =
      some (.line ⟨4096, 16, none, 42, none⟩) ∧
    (parse ["FILE 1 a.cc", "1000 10 42 1"]).lookup 4096 ≠
      (parse ["1000 10 42 1", "FILE 1 a.cc"]).lookup 4096 :=
  ⟨rfl, rfl, by decide⟩

/-- Claim C8, amended: the FileTable mapping itself is insertion-order
independent — reordering FILE records with distinct ids yields a table with
identical lookups — but a line record resolves its file id against the
FILE records seen earlier in the input only: the record inserted for a line
is exactly `{address, size, file: filesById.get(fileId), line, func}` with
`filesById` the table built from the preceding lines, so a FILE record
moved after a referencing line record no longer applies to it. -/
theorem C8_filetable_order_amended :
    (∀ (st : ParseState) (s : String) (r : Nat × Nat × Nat × String),
      matchLINE s.toList = some r →
      parseLine st s = { st with lines := st.lines ++
        [⟨r.1, r.2.1, mapGet st.filesById r.2.2.2, r.2.2.1, st.lastFunc⟩] }) ∧
    (∀ (m : List (String × String)) (k1 : String) (v1 : String)
       (k2 : String) (v2 : String) (k : String), k1 ≠ k2 →
      mapGet (mapSet (mapSet m k1 v1) k2 v2) k =
        mapGet (mapSet (mapSet m k2 v2) k1 v1) k) := by
  refine ⟨parseLine_lineRecord, ?_⟩
  intro m k1 v1 k2 v2 k hne
  by_cases h1 : k1 = k
  · rw [← h1]
    rw [mapGet_mapSet_ne k2 k1 v2 (Ne.symm hne), mapGet_mapSet_self,
      mapGet_mapSet_self]
  · by_cases h2 : k2 = k
    · rw [← h2]
      rw [mapGet_mapSet_self, mapGet_mapSet_ne k1 k2 v1 hne, mapGet_mapSet_self]
    · rw [mapGet_mapSet_ne k2 k v2 h2, mapGet_mapSet_ne k1 k v1 h1,
        mapGet_mapSet_ne k1 k v1 h1, mapGet_mapSet_ne k2 k v2 h2]

theorem C8_filetable_order_amended_witness :
    (matchLINE "1000 10 42 1".toList = some (4096, 16, 42, "1") ∧
     parseLine ({ filesById := [("1", "a.cc")] } : ParseState) "1000 10 42 1" =
       { filesById := [("1", "a.cc")],
         lines := [⟨4096, 16, some "a.cc", 42, none⟩] }) ∧
    (("f1" : String) ≠ "f2" ∧
     mapGet (mapSet (mapSet ([] : List (String × String)) "f1" "a.cc") "f2" "b.cc") "f1" =
       mapGet (mapSet (mapSet ([] : List (String × String)) "f2" "b.cc") "f1" "a.cc") "f1") :=
  ⟨⟨rfl, C8_filetable_order_amended.1 { filesById := [("1", "a.cc")] }
      "1000 10 42 1" (4096, 16, 42, "1") rfl⟩,
   ⟨by decide, C8_filetable_order_amended.2 [] "f1" "a.cc" "f2" "b.cc" "f1" (by decide)⟩⟩

/-! ## Lemmas about the in-flight deduplication table -/

theorem mapGet_append_some {κ ν : Type} [DecidableEq κ] (k : κ) (v : ν) :
    ∀ (m1 m2 : List (κ × ν)), mapGet m1 k = some v →
      mapGet (m1 ++ m2) k = some v := by
  intro m1 m2 h
  induction m1 with
  | nil => cases h
  | cons e m ih =>
    obtain ⟨k0, v0⟩ := e
    by_cases h0 : k0 = k
    · rw [mapGet, if_pos h0] at h
      rw [List.cons_append, mapGet, if_pos h0]
      exact h
    · rw [mapGet, if_neg h0] at h
      rw [List.cons_append, mapGet, if_neg h0]
      exact ih h

theorem mapGet_append_none {κ ν : Type} [DecidableEq κ] (k : κ) :
    ∀ (m1 m2 : List (κ × ν)), mapGet m1 k = none →
      mapGet (m1 ++ m2) k = mapGet m2 k := by
  intro m1 m2 h
  induction m1 with
  | nil => rfl
  | cons e m ih =>
    obtain ⟨k0, v0⟩ := e
    by_cases h0 : k0 = k
    · rw [mapGet, if_pos h0] at h
      cases h
    · rw [mapGet, if_neg h0] at h
      rw [List.cons_append, mapGet, if_neg h0]
      exact ih h

/-- Table entries survive any further run of requests. -/
theorem runRequests_mono {ω : Type} (oracle : String → String → ω) :
    ∀ (reqs : List (String × String)) (t : SymTable ω) (k : String) (v : ω),
      mapGet t.entries k = some v →
      mapGet ((runRequests oracle reqs t).2).entries k = some v := by
  intro reqs
  induction reqs with
  | nil => intro t k v h; exact h
  | cons req rest ih =>
    intro t k v h
    rw [runRequests]
    rw [requestSymbolFile]
    cases hm : mapGet t.entries req.1 with
    | some h0 => exact ih t k v h
    | none =>
      exact ih _ k v (mapGet_append_some k v t.entries [(req.1, oracle req.1 req.2)] h)

/-- Every observed result is the value stored in the final table for its
module id. -/
theorem runRequests_results {ω : Type} (oracle : String → String → ω) :
    ∀ (reqs : List (String × String)) (t : SymTable ω) (p : (String × String) × ω),
      p ∈ (runRequests oracle reqs t).1 →
      mapGet ((runRequests oracle reqs t).2).entries p.1.1 = some p.2 := by
  intro reqs
  induction reqs with
  | nil => intro t p h; cases h
  | cons req rest ih =>
    intro t p hp
    rw [runRequests] at hp ⊢
    rw [requestSymbolFile] at hp ⊢
    cases hm : mapGet t.entries req.1 with
    | some h0 =>
      rw [hm] at hp
      rcases List.mem_cons.mp hp with he | hrest
      · rw [he]
        exact runRequests_mono oracle rest t req.1 h0 hm
      · exact ih t p hrest
    | none =>
      rw [hm] at hp
      rcases List.mem_cons.mp hp with he | hrest
      · rw [he]
        refine runRequests_mono oracle rest _ req.1 _ ?_
        rw [mapGet_append_none req.1 t.entries _ hm]
        rw [mapGet, if_pos rfl]
      · exact ih _ p hrest

/-- Two awaiters of the same module id always observe the same value. -/
theorem runRequests_same_result {ω : Type} (oracle : String → String → ω)
    (reqs : List (String × String)) (t : SymTable ω)
    (p q : (String × String) × ω)
    (hp : p ∈ (runRequests oracle reqs t).1)
    (hq : q ∈ (runRequests oracle reqs t).1) (hid : p.1.1 = q.1.1) :
    p.2 = q.2 := by
  have h1 := runRequests_results oracle reqs t p hp
  have h2 := runRequests_results oracle reqs t q hq
  rw [hid] at h1
  rw [h1] at h2
  exact Option.some.inj h2

/-- The final table has an entry for a module id iff it had one initially or
some request mentions it. -/
theorem runRequests_hasKey {ω : Type} (oracle : String → String → ω) :
    ∀ (reqs : List (String × String)) (t : SymTable ω) (id : String),
      ((mapGet ((runRequests oracle reqs t).2).entries id).isSome = true ↔
        ((mapGet t.entries id).isSome = true ∨ id ∈ reqs.map Prod.fst)) := by
  intro reqs
  induction reqs with
  | nil =>
    intro t id
    simp [runRequests]
  | cons req rest ih =>
    intro t id
    rw [runRequests, requestSymbolFile]
    cases hm : mapGet t.entries req.1 with
    | some h0 =>
      rw [ih t id]
      constructor
      · rintro (h | h)
        · exact Or.inl h
        · exact Or.inr (List.mem_cons_of_mem _ h)
      · rintro (h | h)
        · exact Or.inl h
        · rcases List.mem_cons.mp h with he | hr
          · refine Or.inl ?_
            rw [he, hm]
            rfl
          · exact Or.inr hr
    | none =>
      rw [ih _ id]
      constructor
      · rintro (h | h)
        · by_cases he : id = req.1
          · exact Or.inr (by rw [he]; exact List.mem_cons_self _ _)
          · refine Or.inl ?_
            cases hg : mapGet t.entries id with
            | some v => rfl
            | none =>
              rw [mapGet_append_none id t.entries _ hg, mapGet,
                if_neg (fun e => he e.symm)] at h
              cases h
        · exact Or.inr (List.mem_cons_of_mem _ h)
      · rintro (h | h)
        · refine Or.inl ?_
          cases hg : mapGet t.entries id with
          | none => rw [hg] at h; cases h
          | some v =>
            rw [mapGet_append_some id v t.entries _ hg]
            rfl
        · rcases List.mem_cons.mp h with he | hr
          · refine Or.inl ?_
            rw [he]
            rw [mapGet_append_none req.1 t.entries _ hm, mapGet, if_pos rfl]
            rfl
          · exact Or.inr hr

/-- One `getSymbolFile` call is logged per module id first seen. -/
theorem runRequests_count {ω : Type} (oracle : String → String → ω) :
    ∀ (reqs : List (String × String)) (t : SymTable ω) (id : String),
      t.callLog.count id = (if (mapGet t.entries id).isSome then 1 else 0) →
      ((runRequests oracle reqs t).2).callLog.count id =
        if (mapGet ((runRequests oracle reqs t).2).entries id).isSome then 1 else 0 := by
  intro reqs
  induction reqs with
  | nil => intro t id h; exact h
  | cons req rest ih =>
    intro t id hinv
    rw [runRequests, requestSymbolFile]
    cases hm : mapGet t.entries req.1 with
    | some h0 => exact ih t id hinv
    | none =>
      refine ih _ id ?_
      by_cases he : id = req.1
      · rw [he] at hinv ⊢
        rw [hm] at hinv
        simp only [Option.isSome_none, Bool.false_eq_true, if_false] at hinv
        rw [List.count_append, hinv]
        rw [mapGet_append_none req.1 t.entries _ hm, mapGet, if_pos rfl]
        simp
      · rw [List.count_append]
        have hz : ([req.1].count id) = 0 := by
          simp [List.count_singleton]
          exact fun e => he (by rw [e])
        rw [hz, Nat.add_zero]
        cases hg : mapGet t.entries id with
        | some v =>
          rw [mapGet_append_some id v t.entries _ hg]
          rw [hg] at hinv
          exact hinv
        | none =>
          have hng : mapGet (t.entries ++ [(req.1, oracle req.1 req.2)]) id = none := by
            rw [mapGet_append_none id t.entries _ hg, mapGet]
            rw [if_neg (fun e => he e.symm)]
            rfl
          rw [hng]
          rw [hg] at hinv
          exact hinv

/-- Claim C2: for every collection of concurrently symbolicated frames
(arrival order `reqs` of their atomic check-then-insert steps, each carrying
a module id and module name), at most one underlying `getSymbolFile` call is
started per module id — exactly one for each id that occurs, none otherwise —
and every frame referencing the same module id receives the same result
(the value of the single shared entry in the process-wide map). -/
theorem C2_fetch_dedup {ω : Type} (oracle : String → String → ω)
    (reqs : List (String × String)) (id : String) :
    ((runRequests oracle reqs ⟨[], []⟩).2.callLog.count id =
      if id ∈ reqs.map Prod.fst then 1 else 0) ∧
    (∀ p q, p ∈ (runRequests oracle reqs ⟨[], []⟩).1 →
      q ∈ (runRequests oracle reqs ⟨[], []⟩).1 → p.1.1 = q.1.1 → p.2 = q.2) := by
  constructor
  · have hc := runRequests_count oracle reqs ⟨[], []⟩ id (by simp [mapGet])
    have hk := runRequests_hasKey oracle reqs ⟨[], []⟩ id
    rw [hc]
    by_cases hmem : id ∈ reqs.map Prod.fst
    · rw [if_pos hmem, if_pos (hk.mpr (Or.inr hmem))]
    · rw [if_neg hmem, if_neg]
      intro hs
      rcases hk.mp hs with h | h
      · simp [mapGet] at h
      · exact hmem h
  · exact fun p q hp hq hid =>
      runRequests_same_result oracle reqs ⟨[], []⟩ p q hp hq hid

/-- Witness for C2: three frames, two of them for module id `A`; exactly one
`getSymbolFile` call is logged for `A`, and the later `A`-frame observes the
first caller's result (`Ax`, built from the FIRST frame's module name). -/
theorem C2_fetch_dedup_witness :
    ((runRequests (fun i n => i ++ n) [("A", "x"), ("B", "y"), ("A", "z")]
        ⟨[], []⟩).2.callLog.count "A" =
      if "A" ∈ ([("A", "x"), ("B", "y"), ("A", "z")].map Prod.fst) then 1 else 0) ∧
    ((("A", "x"), "Ax") ∈
        (runRequests (fun i n => i ++ n) [("A", "x"), ("B", "y"), ("A", "z")] ⟨[], []⟩).1 ∧
     (("A", "z"), "Ax") ∈
        (runRequests (fun i n => i ++ n) [("A", "x"), ("B", "y"), ("A", "z")] ⟨[], []⟩).1 ∧
     ((("A", "x"), "Ax") : (String × String) × String).2 =
       ((("A", "z"), "Ax") : (String × String) × String).2) :=
  ⟨(C2_fetch_dedup (fun i n => i ++ n) [("A", "x"), ("B", "y"), ("A", "z")] "A").1,
   by decide, by decide,
   (C2_fetch_dedup (fun i n => i ++ n) [("A", "x"), ("B", "y"), ("A", "z")] "A").2
     (("A", "x"), "Ax") (("A", "z"), "Ax") (by decide) (by decide) rfl⟩

/-! ## Lemmas about the filesystem model and the fetch pipeline -/

theorem mkdirp_files (fs : FileSys) (d : List String) :
    (mkdirp fs d).files = fs.files := by
  rw [mkdirp]
  split <;> rfl

theorem mapGet_mapSet_of_ne {κ ν : Type} [DecidableEq κ] (m : List (κ × ν))
    (k0 k : κ) (v : ν) (h : k0 ≠ k) : mapGet (mapSet m k0 v) k = mapGet m k :=
  mapGet_mapSet_ne k0 k v h m

/-- The temporary staging path is never the final cache path (they have
different numbers of segments). -/
theorem tmpPath_ne_symbolPath (directory : List String) (nm pdb id sfn : String) :
    ((directory ++ ["in_progress"]) ++ [nm]) ≠ (directory ++ [pdb, id, sfn]) := by
  intro e
  have hl := congrArg List.length e
  rw [List.length_append, List.length_append, List.length_append] at hl
  simp at hl

/-- Claim C3: `fetchSymbol` writes downloads atomically.  Content is
streamed to the temporary staging location and only a fully successful
download is renamed into the final cache path, so in every execution in
which the download pipeline fails or is interrupted partway (it throws with
any message, whether the 404 miss or a transfer error, leaving any partial
`written` prefix in the staging file), the final cache path — absent
beforehand, as the caller only fetches when it is — still has no file,
partial or otherwise. -/
theorem C3_atomic_cache_write (fs : FileSys) (w msg : String)
    (directory : List String) (pdb id sfn : String)
    (h : fileExists fs (directory ++ [pdb, id, sfn]) = false) :
    fileExists (fetchSymbol fs (.fail w msg) directory pdb id sfn).1
      (directory ++ [pdb, id, sfn]) = false := by
  rw [fileExists] at h
  have hne := tmpPath_ne_symbolPath directory
    (pdb ++ "_" ++ id ++ "_" ++ sfn ++ ".download") pdb id sfn
  rw [fetchSymbol]
  split
  · simp only [fileExists]
    rw [mapGet_mapSet_of_ne _ _ _ _ hne]
    rw [mkdirp_files]
    exact h
  · simp only [fileExists]
    rw [mapGet_mapSet_of_ne _ _ _ _ hne]
    rw [mkdirp_files]
    exact h

/-- Witness for C3: an interrupted transfer (partial body `MODU`, error
`read ECONNRESET`) against an empty filesystem leaves nothing at the final
cache path. -/
theorem C3_atomic_cache_write_witness :
    (fileExists ⟨[], []⟩ (["cache"] ++ ["foo.pdb", "ID", "foo.sym"]) = false) ∧
    fileExists (fetchSymbol ⟨[], []⟩ (.fail "MODU" "read ECONNRESET")
        ["cache"] "foo.pdb" "ID" "foo.sym").1
      (["cache"] ++ ["foo.pdb", "ID", "foo.sym"]) = false :=
  ⟨rfl, C3_atomic_cache_write ⟨[], []⟩ "MODU" "read ECONNRESET"
    ["cache"] "foo.pdb" "ID" "foo.sym" rfl⟩

/-- Unfolding one 404-miss iteration of the URL loop. -/
theorem fetchLoop_cons_404 (pf : String → Except String SymbolFile)
    (resp : String → DlOutcome) (cd : List String) (pdb id sfn : String)
    (fs : FileSys) (u : String) (rest : List String)
    (h : is404 (resp u) = true) :
    fetchLoop pf resp cd pdb id sfn fs (u :: rest) =
      ⟨(fetchLoop pf resp cd pdb id sfn (fetchSymbol fs (resp u) cd pdb id sfn).1 rest).fsys,
       u :: (fetchLoop pf resp cd pdb id sfn (fetchSymbol fs (resp u) cd pdb id sfn).1 rest).attempts,
       (fetchLoop pf resp cd pdb id sfn (fetchSymbol fs (resp u) cd pdb id sfn).1 rest).result⟩ := by
  cases hr : resp u with
  | success c => rw [hr] at h; simp [is404] at h
  | fail w msg =>
    rw [hr] at h
    rw [is404] at h
    rw [fetchLoop, hr]
    simp only [fetchSymbol, h, if_true]

/-- Unfolding a fatal-error iteration of the URL loop. -/
theorem fetchLoop_cons_fatal (pf : String → Except String SymbolFile)
    (resp : String → DlOutcome) (cd : List String) (pdb id sfn : String)
    (fs : FileSys) (u : String) (rest : List String) (w msg : String)
    (hr : resp u = .fail w msg)
    (h404 : strStarts msg "Response code 404" = false) :
    fetchLoop pf resp cd pdb id sfn fs (u :: rest) =
      ⟨rmDir (fetchSymbol fs (resp u) cd pdb id sfn).1 (cd ++ [pdb, id]),
       [u], .error msg⟩ := by
  rw [fetchLoop, hr]
  simp only [fetchSymbol, h404, Bool.false_eq_true, if_false]


/-- After a successful `fetchSymbol`, the final cache path holds exactly the
downloaded content. -/
theorem fetchSymbol_success_files (fs : FileSys) (c : String)
    (cd : List String) (pdb id sfn : String) :
    mapGet (fetchSymbol fs (.success c) cd pdb id sfn).1.files
      (cd ++ [pdb, id, sfn]) = some c := by
  rw [fetchSymbol]
  exact mapGet_mapSet_self _ c _

/-- Unfolding a successful-download iteration of the URL loop: the freshly
renamed cache file holds exactly the downloaded content, which is parsed;
a parse rejection bypasses the catch clause (the parse promise is returned
without `await`) and becomes the loop's result as is. -/
theorem fetchLoop_cons_success (pf : String → Except String SymbolFile)
    (resp : String → DlOutcome) (cd : List String) (pdb id sfn : String)
    (fs : FileSys) (u : String) (rest : List String) (c : String)
    (hr : resp u = .success c) :
    fetchLoop pf resp cd pdb id sfn fs (u :: rest) =
      (match pf c with
       | .ok sf => ⟨(fetchSymbol fs (resp u) cd pdb id sfn).1, [u], .ok (some sf)⟩
       | .error e => ⟨(fetchSymbol fs (resp u) cd pdb id sfn).1, [u], .error e⟩) := by
  simp only [fetchLoop, hr]
  rw [show (fetchSymbol fs (.success c) cd pdb id sfn).2 = Except.ok true from rfl]
  rw [fetchSymbol_success_files fs c cd pdb id sfn]

/-- When every URL responds 404, the whole list is attempted in order and
the loop reports a clean miss. -/
theorem fetchLoop_all404 (pf : String → Except String SymbolFile)
    (resp : String → DlOutcome) (cd : List String) (pdb id sfn : String) :
    ∀ (urls : List String) (fs : FileSys), (∀ u ∈ urls, is404 (resp u) = true) →
      (fetchLoop pf resp cd pdb id sfn fs urls).attempts = urls ∧
      (fetchLoop pf resp cd pdb id sfn fs urls).result = .ok none := by
  intro urls
  induction urls with
  | nil => intro fs _; exact ⟨rfl, rfl⟩
  | cons u rest ih =>
    intro fs hall
    rw [fetchLoop_cons_404 pf resp cd pdb id sfn fs u rest
      (hall u (List.mem_cons_self u rest))]
    obtain ⟨ha, hres⟩ := ih (fetchSymbol fs (resp u) cd pdb id sfn).1
      (fun v hv => hall v (List.mem_cons_of_mem u hv))
    refine ⟨?_, hres⟩
    show u :: (fetchLoop pf resp cd pdb id sfn
      (fetchSymbol fs (resp u) cd pdb id sfn).1 rest).attempts = u :: rest
    rw [ha]

/-- Behaviour of the loop at the first non-404 URL, after a prefix of 404
misses: a fatal error aborts with exactly that error, a success returns the
parse of the downloaded content; in both cases the attempts are exactly the
404 prefix plus the deciding URL. -/
theorem fetchLoop_after404 (pf : String → Except String SymbolFile)
    (resp : String → DlOutcome) (cd : List String) (pdb id sfn : String) :
    ∀ (pre : List String) (u : String) (rest : List String) (fs : FileSys),
      (∀ v ∈ pre, is404 (resp v) = true) →
      ((∀ w msg, resp u = .fail w msg → strStarts msg "Response code 404" = false →
          (fetchLoop pf resp cd pdb id sfn fs (pre ++ u :: rest)).attempts = pre ++ [u] ∧
          (fetchLoop pf resp cd pdb id sfn fs (pre ++ u :: rest)).result = .error msg) ∧
       (∀ c, resp u = .success c →
          (fetchLoop pf resp cd pdb id sfn fs (pre ++ u :: rest)).attempts = pre ++ [u] ∧
          (fetchLoop pf resp cd pdb id sfn fs (pre ++ u :: rest)).result =
            (match pf c with
             | .ok sf => .ok (some sf)
             | .error e => .error e))) := by
  intro pre
  induction pre with
  | nil =>
    intro u rest fs _
    constructor
    · intro w msg hr h404
      rw [List.nil_append,
        fetchLoop_cons_fatal pf resp cd pdb id sfn fs u rest w msg hr h404]
      exact ⟨rfl, rfl⟩
    · intro c hr
      rw [List.nil_append,
        fetchLoop_cons_success pf resp cd pdb id sfn fs u rest c hr]
      cases hp : pf c with
      | ok sf => exact ⟨rfl, rfl⟩
      | error e => exact ⟨rfl, rfl⟩
  | cons v pre2 ih =>
    intro u rest fs hall
    have h4 : is404 (resp v) = true := hall v (List.mem_cons_self v pre2)
    rw [List.cons_append,
      fetchLoop_cons_404 pf resp cd pdb id sfn fs v (pre2 ++ u :: rest) h4]
    obtain ⟨ihf, ihs⟩ := ih u rest (fetchSymbol fs (resp v) cd pdb id sfn).1
      (fun x hx => hall x (List.mem_cons_of_mem v hx))
    constructor
    · intro w msg hr h404
      obtain ⟨ha, hres⟩ := ihf w msg hr h404
      refine ⟨?_, hres⟩
      show v :: (fetchLoop pf resp cd pdb id sfn
        (fetchSymbol fs (resp v) cd pdb id sfn).1 (pre2 ++ u :: rest)).attempts =
          (v :: pre2) ++ [u]
      rw [ha, List.cons_append]
    · intro c hr
      obtain ⟨ha, hres⟩ := ihs c hr
      refine ⟨?_, hres⟩
      show v :: (fetchLoop pf resp cd pdb id sfn
        (fetchSymbol fs (resp v) cd pdb id sfn).1 (pre2 ++ u :: rest)).attempts =
          (v :: pre2) ++ [u]
      rw [ha, List.cons_append]

/-- Claim C4: during a fetch, symbol-server base URLs are tried strictly in
their listed priority order, one `fetchSymbol` attempt per URL; a response
equivalent to HTTP 404 (an error whose message starts `Response code 404`)
is the only non-fatal miss signal, causing exactly the next URL to be
tried — when every URL is a 404 miss, all are attempted in order and the
fetch resolves to absent — while every other transport/HTTP failure is
fatal: it ends the loop at that URL (no later URL is attempted) and the
error itself is the loop's result, propagated rather than swallowed; and,
through the shared in-flight table, every two awaiters of the same module
id observe the same outcome — so a fatal error reaches all of them. -/
theorem C4_url_priority_and_fatal_errors (pf : String → Except String SymbolFile)
    (resp : String → DlOutcome) (cd : List String) (pdb id sfn : String)
    (fs : FileSys) :
    (∀ urls, (∀ u ∈ urls, is404 (resp u) = true) →
      (fetchLoop pf resp cd pdb id sfn fs urls).attempts = urls ∧
      (fetchLoop pf resp cd pdb id sfn fs urls).result = .ok none) ∧
    (∀ pre u rest w msg, (∀ v ∈ pre, is404 (resp v) = true) →
      resp u = .fail w msg → strStarts msg "Response code 404" = false →
      (fetchLoop pf resp cd pdb id sfn fs (pre ++ u :: rest)).attempts = pre ++ [u] ∧
      (fetchLoop pf resp cd pdb id sfn fs (pre ++ u :: rest)).result = .error msg) ∧
    (∀ pre u rest c, (∀ v ∈ pre, is404 (resp v) = true) →
      resp u = .success c →
      (fetchLoop pf resp cd pdb id sfn fs (pre ++ u :: rest)).attempts = pre ++ [u] ∧
      (fetchLoop pf resp cd pdb id sfn fs (pre ++ u :: rest)).result =
        (match pf c with
         | .ok sf => .ok (some sf)
         | .error e => .error e)) ∧
    (∀ (oracle : String → String → Except String (Option SymbolFile))
       (reqs : List (String × String)) p q,
      p ∈ (runRequests oracle reqs ⟨[], []⟩).1 →
      q ∈ (runRequests oracle reqs ⟨[], []⟩).1 → p.1.1 = q.1.1 → p.2 = q.2) :=
  ⟨fun urls h => fetchLoop_all404 pf resp cd pdb id sfn urls fs h,
   fun pre u rest w msg hp hr h4 =>
     (fetchLoop_after404 pf resp cd pdb id sfn pre u rest fs hp).1 w msg hr h4,
   fun pre u rest c hp hr =>
     (fetchLoop_after404 pf resp cd pdb id sfn pre u rest fs hp).2 c hr,
   fun oracle reqs p q hp hq hid =>
     runRequests_same_result oracle reqs ⟨[], []⟩ p q hp hq hid⟩

/-- Witness for C4 on the listed server pair: the first URL 404s, the
second fails with a 500; both are attempted in listed order and the 500 is
the loop's propagated result. -/
theorem C4_url_priority_and_fatal_errors_witness :
    (fetchLoop (fun c => .ok (parse [c]))
        (fun url => if url = "https://symbols.mozilla.org/try"
          then DlOutcome.fail "" "Response code 404 (Not Found)"
          else DlOutcome.fail "" "Response code 500 (Internal Server Error)")
        ["cache"] "foo" "ID" "foo.sym" ⟨[], []⟩
        (["https://symbols.mozilla.org/try"] ++
          "https://symbols.electronjs.org" :: [])).attempts =
      ["https://symbols.mozilla.org/try"] ++ ["https://symbols.electronjs.org"] ∧
    (fetchLoop (fun c => .ok (parse [c]))
        (fun url => if url = "https://symbols.mozilla.org/try"
          then DlOutcome.fail "" "Response code 404 (Not Found)"
          else DlOutcome.fail "" "Response code 500 (Internal Server Error)")
        ["cache"] "foo" "ID" "foo.sym" ⟨[], []⟩
        (["https://symbols.mozilla.org/try"] ++
          "https://symbols.electronjs.org" :: [])).result =
      .error "Response code 500 (Internal Server Error)" :=
  (C4_url_priority_and_fatal_errors (fun c => .ok (parse [c]))
      (fun url => if url = "https://symbols.mozilla.org/try"
        then DlOutcome.fail "" "Response code 404 (Not Found)"
        else DlOutcome.fail "" "Response code 500 (Internal Server Error)")
      ["cache"] "foo" "ID" "foo.sym" ⟨[], []⟩).2.1
    ["https://symbols.mozilla.org/try"] "https://symbols.electronjs.org" []
    "" "Response code 500 (Internal Server Error)"
    (by decide) (by decide) (by decide)

/-! ## Lemmas about the cache decision procedure -/

theorem listIsPrefixOf_append {α : Type} [BEq α] [LawfulBEq α] (d t : List α) :
    d.isPrefixOf (d ++ t) = true := by
  induction d with
  | nil => simp
  | cons a as ih => simp [List.isPrefixOf_cons₂, ih]

theorem mapGet_filter_out {κ ν : Type} [DecidableEq κ] (P : κ → Bool) (p : κ)
    (hP : P p = true) :
    ∀ m : List (κ × ν), mapGet (m.filter fun e => !(P e.1)) p = none := by
  intro m
  induction m with
  | nil => rfl
  | cons e m ih =>
    obtain ⟨k, v⟩ := e
    cases hk : P k with
    | true => simp [List.filter_cons, hk, ih]
    | false =>
      have hne : k ≠ p := fun e => by rw [e, hP] at hk; cases hk
      simp [List.filter_cons, hk, mapGet, hne, ih]

theorem contains_filter_out {α : Type} [BEq α] [LawfulBEq α] (Q : α → Bool)
    (a : α) (hQ : Q a = true) :
    ∀ l : List α, (l.filter fun x => !(Q x)).contains a = false := by
  intro l
  cases hc : (l.filter fun x => !(Q x)).contains a with
  | false => rfl
  | true =>
    exfalso
    have hm : a ∈ l.filter fun x => !(Q x) := List.mem_of_elem_eq_true hc
    have := (List.mem_filter.mp hm).2
    rw [hQ] at this
    cases this

theorem any_filter_not {α : Type} (P : α → Bool) :
    ∀ l : List α, (l.filter fun x => !(P x)).any P = false := by
  intro l
  induction l with
  | nil => rfl
  | cons x l ih =>
    cases hx : P x with
    | true => simp [List.filter_cons, hx, ih]
    | false => simp [List.filter_cons, hx, ih]

/-- Removing a directory removes every file at a path it prefixes. -/
theorem fileExists_rmDir (fs : FileSys) {d p : List String}
    (h : d.isPrefixOf p = true) : fileExists (rmDir fs d) p = false := by
  rw [rmDir, fileExists]
  rw [mapGet_filter_out (fun k => d.isPrefixOf k) p h fs.files]
  rfl


/-- Removing a directory removes the directory itself. -/
theorem dirExists_rmDir_self (fs : FileSys) (d : List String) :
    dirExists (rmDir fs d) d = false := by
  have hd : d.isPrefixOf d = true := by
    have h0 := listIsPrefixOf_append d ([] : List String)
    rw [List.append_nil] at h0
    exact h0
  rw [rmDir, dirExists]
  rw [contains_filter_out (fun x => d.isPrefixOf x) d hd fs.dirs]
  rw [any_filter_not (fun e : List String × String => d.isPrefixOf e.1) fs.files]
  rfl

/-- The per-module directory is a segment-prefix of the final cache path. -/
theorem moduleDir_isPrefixOf_symbolPath (cd : List String) (mid mn : String) :
    (moduleDirOf cd mid mn).isPrefixOf (symbolPathOf cd mid mn) = true := by
  rw [moduleDirOf, symbolPathOf]
  have he : cd ++ [pdbOf mn, mid, symFileNameOf (pdbOf mn)] =
      (cd ++ [pdbOf mn, mid]) ++ [symFileNameOf (pdbOf mn)] := by
    rw [List.append_assoc]
    rfl
  rw [he]
  exact listIsPrefixOf_append _ _

/-- Counterexample to claim C5 as stated: with an empty per-module cache
directory present on disk (`cache/mod/ID` exists but the cache file
`cache/mod/ID/mod.sym` is absent) and refresh not forced, `getSymbolFile`
returns absent without attempting any fetch, even though every server would
have answered with a valid symbol file — contradicting "when the cache path
is absent ... it always delegates to the fetch path, returning ... absent
only when no server had the symbol". -/
theorem C5_cache_decision_counterexample :
    (fileExists ⟨[], [["cache", "mod", "ID"]]⟩
      (symbolPathOf ["cache"] "ID" "mod") = false) ∧
    (getSymbolFile (fun c => .ok (parse [c]))
        (fun _ => .success "MODULE mac x64 ID mod")
        ⟨[], [["cache", "mod", "ID"]]⟩ ["cache"] "ID" "mod" false).result =
      .ok none ∧
    (getSymbolFile (fun c => .ok (parse [c]))
        (fun _ => .success "MODULE mac x64 ID mod")
        ⟨[], [["cache", "mod", "ID"]]⟩ ["cache"] "ID" "mod" false).attempts =
      [] ∧
    is404 ((fun _ : String => DlOutcome.success "MODULE mac x64 ID mod")
      "https://symbols.mozilla.org/try") = false :=
  ⟨rfl, rfl, rfl, rfl⟩

/-- Claim C5, amended: `getSymbolFile` follows the code's cache decision
procedure.  (a) When the cache file exists and refresh is not forced, it
parses and returns it.  (b) When that cached parse fails, the failure is NOT
recovered: line 59 returns the un-awaited parse promise, so the rejection
bypasses the try/catch and becomes the call's result — the per-module cache
directory is not deleted and no fresh fetch occurs.  (c) When the cache file
is absent, it delegates to the fetch loop only if the per-module directory
is also absent or refresh is forced; if the directory survives without the
file (a remembered miss) and refresh is not forced, it returns absent
without fetching; and when refresh is forced while the cache file still
exists, it returns absent without fetching or parsing. -/
theorem C5_cache_decision_amended (pf : String → Except String SymbolFile)
    (resp : String → DlOutcome) (fs : FileSys) (cd : List String)
    (mid mn : String) (force : Bool) :
    (∀ sf, fileExists fs (symbolPathOf cd mid mn) = true → force = false →
      pf ((mapGet fs.files (symbolPathOf cd mid mn)).getD "") = .ok sf →
      getSymbolFile pf resp fs cd mid mn force = ⟨fs, [], .ok (some sf)⟩) ∧
    (∀ e, fileExists fs (symbolPathOf cd mid mn) = true → force = false →
      pf ((mapGet fs.files (symbolPathOf cd mid mn)).getD "") = .error e →
      getSymbolFile pf resp fs cd mid mn force = ⟨fs, [], .error e⟩) ∧
    (fileExists fs (symbolPathOf cd mid mn) = false →
      (dirExists fs (moduleDirOf cd mid mn) = false ∨ force = true) →
      getSymbolFile pf resp fs cd mid mn force =
        fetchLoop pf resp cd (pdbOf mn) mid (symFileNameOf (pdbOf mn))
          fs SYMBOL_BASE_URLS) ∧
    (fileExists fs (symbolPathOf cd mid mn) = false →
      dirExists fs (moduleDirOf cd mid mn) = true → force = false →
      getSymbolFile pf resp fs cd mid mn force = ⟨fs, [], .ok none⟩) ∧
    (fileExists fs (symbolPathOf cd mid mn) = true → force = true →
      getSymbolFile pf resp fs cd mid mn force = ⟨fs, [], .ok none⟩) := by
  refine ⟨?_, ?_, ?_, ?_, ?_⟩
  · intro sf hf hforce hp
    rw [symbolPathOf] at hf hp
    rw [hforce]
    simp only [getSymbolFile, hf, hp]
    simp
  · intro e hf hforce hp
    rw [symbolPathOf] at hf hp
    rw [hforce]
    simp only [getSymbolFile, hf, hp]
    simp
  · intro hf hdisj
    rw [symbolPathOf] at hf
    rcases hdisj with hd | hforce
    · rw [moduleDirOf] at hd
      simp only [getSymbolFile, getSymbolFileFetchStage, hf, hd]
      simp
    · rw [hforce]
      simp only [getSymbolFile, getSymbolFileFetchStage, hf]
      simp
  · intro hf hd hforce
    rw [symbolPathOf] at hf
    rw [moduleDirOf] at hd
    rw [hforce]
    simp only [getSymbolFile, getSymbolFileFetchStage, hf, hd]
    simp
  · intro hf hforce
    rw [symbolPathOf] at hf
    rw [hforce]
    simp only [getSymbolFile, getSymbolFileFetchStage, hf]
    simp

/-- Witness for the amended C5: a cache hit parses and returns the cached
file without any fetch attempt. -/
theorem C5_cache_decision_amended_witness :
    (fileExists ⟨[(["cache", "mod", "ID", "mod.sym"], "MODULE mac x64 ID mod")], []⟩
      (symbolPathOf ["cache"] "ID" "mod") = true) ∧
    getSymbolFile (fun c => .ok (parse [c]))
        (fun _ => .fail "" "Response code 404 (Not Found)")
        ⟨[(["cache", "mod", "ID", "mod.sym"], "MODULE mac x64 ID mod")], []⟩
        ["cache"] "ID" "mod" false =
      ⟨⟨[(["cache", "mod", "ID", "mod.sym"], "MODULE mac x64 ID mod")], []⟩, [],
        .ok (some (parse ["MODULE mac x64 ID mod"]))⟩ :=
  ⟨rfl,
   (C5_cache_decision_amended (fun c => .ok (parse [c]))
      (fun _ => .fail "" "Response code 404 (Not Found)")
      ⟨[(["cache", "mod", "ID", "mod.sym"], "MODULE mac x64 ID mod")], []⟩
      ["cache"] "ID" "mod" false).1 (parse ["MODULE mac x64 ID mod"]) rfl rfl rfl⟩
